import Mathlib

/-
Verification development for the T-Conforming-Balls repository.

The repository builds structured ("transfinite") meshes for an annular
disk (src/T-Conf/core_disk.py) and for spherical wedges obtained by
revolving 2D patches (src/T_Conf/mesh.py), driving the external gmsh
kernel.  We embed the two modules shallowly:

* pure computations (the Size/Division Planner of core_disk.py lines
  54-55, the arrangement rule of mesh.py lines 110-116) become Lean
  functions over `ℚ` — Python floats are idealized as exact rationals,
  and `math.pi` is taken to be the exact rational value of the IEEE-754
  double stored in `math.pi`, so that every definition stays executable;
* stateful kernel-driving code becomes a hand-rolled state-and-exception
  monad over an abstract kernel state carrying the sequence of kernel
  calls made so far (the trace) plus per-entity-kind tag counters, so
  that theorems can speak about which kernel calls a run performs;
* fallible Python operations (list indexing, `list.index`, `next`)
  return into the exception part of the monad (`PyErr`).

Modules of the repository that are not part of src/ (T_Conf.utils,
T_Conf.transfinite) are modelled from the spec where a claim needs them;
each such definition carries a doc comment starting with
"Modelled from the spec:".
-/

namespace TConfBalls

/-! ## Python-level errors -/

/-- Exceptions a run of the embedded Python code can raise. -/
inductive PyErr where
  | valueError (msg : String)
  | indexError
  | stopIteration
  | nameError
  deriving DecidableEq, Repr

/-! ## Float constants -/

/-- The exact rational value of the IEEE-754 double `math.pi`
(`884279719003555 * 2 ^ (-48)`). -/
def pi_float : ℚ := 884279719003555 / 281474976710656

/-! ## Size/Division Planner (core_disk.py lines 54-55)

`n_div_radial = max(4, int(np.ceil(2 * a / h_band)))`
`n_div_angular = max(4, int(math.ceil((0.5 * math.pi) / h_band)))`

For nonnegative arguments `int(ceil(x))` is `⌈x⌉`. -/

/-- core_disk.py line 54. -/
def n_div_radial (a h_band : ℚ) : ℤ := max 4 (Int.ceil (2 * a / h_band))

/-- core_disk.py line 55.  Note the numerator is the fixed constant
`0.5 * math.pi`: no radius and no per-sector angular span enters. -/
def n_div_angular (h_band : ℚ) : ℤ := max 4 (Int.ceil ((1/2 * pi_float) / h_band))

/-- Formalization of the claim's planner formula (spec section 4.1):
`n_div_angular = max(4, ceil((radius_reference * dTheta) / h_band))`.
Stated from the spec's words, for comparison against `n_div_angular`,
which is translated from the source. -/
def n_div_angular_claimed (radius_reference dTheta h_band : ℚ) : ℤ :=
  max 4 (Int.ceil (radius_reference * dTheta / h_band))

/-- The size-classification function of core_disk.py lines 57-63.  The
source computes `r = sqrt(x*x + y*y)`; every call site passes a point
constructed in polar form at a known nonnegative radius, so the
embedding takes that radius directly. -/
def meshSizeAt (a rInner h_band h_outer : ℚ) (r : ℚ) : ℚ :=
  if rInner - a ≤ r ∧ r ≤ rInner + a then h_band else h_outer

/-! ## Kernel model for the disk builder (core_disk.py)

Each gmsh call the disk builder makes is recorded as one event.  Tags
are allocated the way gmsh's built-in geometry kernel allocates them:
one independent counter per entity kind, starting at 1. -/

/-- One kernel call of core_disk.py. -/
inductive DiskEvent where
  | isInitializedQ
  | gmshInit
  | getCurrentQ
  | modelAdd (name : String)
  | addPoint (tag : ℤ) (r t size : ℚ)
  | addLine (tag p q : ℤ)
  | addCircleArc (tag pstart pcenter pend : ℤ)
  | addCurveLoop (tag : ℤ) (curves : List ℤ)
  | addPlaneSurface (tag : ℤ) (loops : List ℤ)
  | setTransfinite (radial circular : List ℤ) (surfaces : List (ℤ × String)) (ndr ndc : ℤ)
  | addPhysicalGroup (tag dim : ℤ) (entities : List ℤ)
  | setPhysicalName (dim tag : ℤ) (name : String)
  | synchronize
  deriving DecidableEq, Repr

/-- The abstract gmsh state as seen by core_disk.py: the two flags the
initialization preamble branches on, the per-kind tag counters, and the
trace of kernel calls made so far. -/
structure DiskKernel where
  initialized : Bool
  hasModel : Bool
  nextPoint : ℤ
  nextCurve : ℤ
  nextLoop : ℤ
  nextSurface : ℤ
  nextPhys : ℤ
  trace : List DiskEvent
  deriving DecidableEq, Repr

/-- The kernel calls of a state, in chronological order (the trace is
stored most-recent-first). -/
def DiskKernel.events (k : DiskKernel) : List DiskEvent := k.trace.reverse

/-- A gmsh process that has not been touched yet. -/
def freshDiskKernel : DiskKernel :=
  { initialized := false, hasModel := false, nextPoint := 1, nextCurve := 1,
    nextLoop := 1, nextSurface := 1, nextPhys := 1, trace := [] }

/-- State-and-exception monad for the embedded disk builder: Python
exceptions abort the run but leave the kernel state (already-created
geometry) behind, matching spec section 5 (no rollback). -/
def DiskM (α : Type) : Type := DiskKernel → Except PyErr α × DiskKernel

instance : Monad DiskM where
  pure a := fun k => (Except.ok a, k)
  bind m f := fun k =>
    match m k with
    | (Except.ok a, k2) => f a k2
    | (Except.error e, k2) => (Except.error e, k2)

/-- Raise a Python exception. -/
def DiskM.throw {α : Type} (e : PyErr) : DiskM α := fun k => (Except.error e, k)

/-- Unfolding lemma for `bind` on the disk monad. -/
@[simp] lemma DiskM.bind_def {α β : Type} (m : DiskM α) (f : α → DiskM β) (k : DiskKernel) :
    (m >>= f) k =
      match m k with
      | (Except.ok a, k2) => f a k2
      | (Except.error e, k2) => (Except.error e, k2) := rfl

/-- Unfolding lemma for `pure` on the disk monad. -/
@[simp] lemma DiskM.pure_def {α : Type} (a : α) (k : DiskKernel) :
    (pure a : DiskM α) k = (Except.ok a, k) := rfl

/-- Read the kernel state. -/
def DiskM.get : DiskM DiskKernel := fun k => (Except.ok k, k)

/-- Record one kernel call.  The trace is stored most-recent-first
(each call conses onto the front); `DiskKernel.events` recovers
chronological order. -/
def emitD (e : DiskEvent) : DiskM Unit :=
  fun k => (Except.ok (), { k with trace := e :: k.trace })

/-- `gmsh.model.geo.addPoint(x, y, 0, size)`, with the point recorded in
polar form `(r, t)`, the cartesian position being
`(r * cos (2*pi*t), r * sin (2*pi*t))`; no claim refers to cartesian
coordinates. -/
def addPointD (r t size : ℚ) : DiskM ℤ := fun k =>
  (Except.ok k.nextPoint,
   { k with nextPoint := k.nextPoint + 1,
            trace := .addPoint k.nextPoint r t size :: k.trace })

/-- `gmsh.model.geo.addLine(p, q)`. -/
def addLineD (p q : ℤ) : DiskM ℤ := fun k =>
  (Except.ok k.nextCurve,
   { k with nextCurve := k.nextCurve + 1,
            trace := .addLine k.nextCurve p q :: k.trace })

/-- `gmsh.model.geo.addCircleArc(pstart, pcenter, pend)`. -/
def addCircleArcD (pstart pcenter pend : ℤ) : DiskM ℤ := fun k =>
  (Except.ok k.nextCurve,
   { k with nextCurve := k.nextCurve + 1,
            trace := .addCircleArc k.nextCurve pstart pcenter pend :: k.trace })

/-- `gmsh.model.geo.addCurveLoop(curves)` (signed curve tags). -/
def addCurveLoopD (curves : List ℤ) : DiskM ℤ := fun k =>
  (Except.ok k.nextLoop,
   { k with nextLoop := k.nextLoop + 1,
            trace := .addCurveLoop k.nextLoop curves :: k.trace })

/-- `gmsh.model.geo.addPlaneSurface(loops)`. -/
def addPlaneSurfaceD (loops : List ℤ) : DiskM ℤ := fun k =>
  (Except.ok k.nextSurface,
   { k with nextSurface := k.nextSurface + 1,
            trace := .addPlaneSurface k.nextSurface loops :: k.trace })

/-- `gmsh.model.addPhysicalGroup(dim, entities)`. -/
def addPhysicalGroupD (dim : ℤ) (entities : List ℤ) : DiskM ℤ := fun k =>
  (Except.ok k.nextPhys,
   { k with nextPhys := k.nextPhys + 1,
            trace := .addPhysicalGroup k.nextPhys dim entities :: k.trace })

/-- Modelled from the spec: `T_Conf.utils.ensure_gmsh_available` is not
under src/.  Per spec sections 2 and 6 it is an availability check on
the external kernel with no model side effects. -/
def ensure_gmsh_available : DiskM Unit := pure ()

/-- Modelled from the spec: `T_Conf.transfinite.set_transfinite` is not
under src/.  Per spec sections 4.2 and 6 it declares per-edge division
counts and per-surface arrangements; the embedding records the call and
its arguments as a single kernel event. -/
def set_transfinite (radial circular : List ℤ) (surfaces : List (ℤ × String))
    (ndr ndc : ℤ) : DiskM Unit :=
  emitD (.setTransfinite radial circular surfaces ndr ndc)

/-- Python list indexing `xs[i]`: raises `IndexError` out of range. -/
def getIdx (xs : List ℤ) (i : ℕ) : DiskM ℤ :=
  match xs.get? i with
  | some v => pure v
  | none => DiskM.throw .indexError

/-- The initialization preamble of core_disk.py lines 39-45:
`if not gmsh.isInitialized(): gmsh.initialize()` followed by
`try: gmsh.model.getCurrent() except: gmsh.model.add("TransfiniteDisk")`. -/
def gmshSetup : DiskM Unit := do
  let k ← DiskM.get
  emitD .isInitializedQ
  if k.initialized then pure () else
    fun k2 => (Except.ok (),
      { k2 with initialized := true, trace := .gmshInit :: k2.trace })
  emitD .getCurrentQ
  let k3 ← DiskM.get
  if k3.hasModel then pure () else
    fun k4 => (Except.ok (),
      { k4 with hasModel := true, trace := .modelAdd "TransfiniteDisk" :: k4.trace })

/-! ## Disk Topology Builder (core_disk.py, Transfinite_Disk) -/

/-- The loop locals of one sector of core_disk.py lines 75-150: the
angular bounds (as fractions `t` of a full turn, `theta = 2*pi*t`), the
eight boundary point tags, the interface-arc tag (`curves_ib[1]`), and
the band-surface tags handed to `set_transfinite`. -/
structure SectorData where
  t0 : ℚ
  t1 : ℚ
  in0 : ℤ
  in1 : ℤ
  mid0 : ℤ
  mid1 : ℤ
  out0 : ℤ
  out1 : ℤ
  o20 : ℤ
  o21 : ℤ
  arc_interface : ℤ
  surf_ib : ℤ
  surf_ob : ℤ
  deriving DecidableEq, Repr

/-- What Transfinite_Disk leaves in Python locals at the end of a
successful run: the per-sector data and the two surface accumulator
lists. -/
structure DiskOut where
  sectors : List SectorData
  inner_surfaces : List ℤ
  outer_surfaces : List ℤ
  deriving DecidableEq, Repr

/-- The helper `make_pt(r, theta)` of core_disk.py lines 70-72, with the
angle carried as the turn fraction `t` (`theta = 2*pi*t`). -/
def make_pt (a rInner h_band h_outer : ℚ) (r t : ℚ) : DiskM ℤ :=
  addPointD r t (meshSizeAt a rInner h_band h_outer r)

/-- One iteration of the sector loop, core_disk.py lines 75-150.
Returns the sector locals plus the surface tags this iteration appends
to `inner_surfaces` and `outer_surfaces`. -/
def sectorStep (a rInner rOuter h_band h_outer : ℚ) (ndr nda : ℤ)
    (p_center : ℤ) (i : ℕ) : DiskM (SectorData × List ℤ × List ℤ) := do
  let t0 : ℚ := (i : ℚ) / 4
  let t1 : ℚ := ((i : ℚ) + 1) / 4
  let pin0 ← make_pt a rInner h_band h_outer (rInner - a) t0
  let pin1 ← make_pt a rInner h_band h_outer (rInner - a) t1
  let pmid0 ← make_pt a rInner h_band h_outer rInner t0
  let pmid1 ← make_pt a rInner h_band h_outer rInner t1
  let pout0 ← make_pt a rInner h_band h_outer (rInner + a) t0
  let pout1 ← make_pt a rInner h_band h_outer (rInner + a) t1
  let po20 ← make_pt a rInner h_band h_outer rOuter t0
  let po21 ← make_pt a rInner h_band h_outer rOuter t1
  -- lines 90-121: inner band (and inner bulk pie, or the degenerate
  -- 3-corner band); yields (curves_ib, arc_interface, surf_ib, inner adds)
  let (curves_ib, arc_interface, surf_ib, innerAdds) ←
    if rInner - a > 0 then do
      let c0 ← addLineD pin0 pmid0
      let c1 ← addCircleArcD pmid0 p_center pmid1
      let c2 ← addLineD pmid1 pin1
      let c3 ← addCircleArcD pin1 p_center pin0
      let curves_ib := [c0, c1, c2, c3]
      let loop_ib ← addCurveLoopD curves_ib
      let surf_ib ← addPlaneSurfaceD [loop_ib]
      let inner_arc := c3
      let l0 ← addLineD p_center pin0
      let l1 ← addLineD pin1 p_center
      let loop0 ← addCurveLoopD [l0, -inner_arc, l1]
      let pie ← addPlaneSurfaceD [loop0]
      pure (curves_ib, c1, surf_ib, [surf_ib, pie])
    else if rInner = a then do
      let c0 ← addLineD p_center pmid0
      let c1 ← addCircleArcD pmid0 p_center pmid1
      let c2 ← addLineD pmid1 p_center
      let curves_ib := [c0, c1, c2]
      let loop_ib ← addCurveLoopD curves_ib
      let surf_ib ← addPlaneSurfaceD [loop_ib]
      pure (curves_ib, c1, surf_ib, [surf_ib])
    else
      -- unreachable after the parameter checks; Python would hit an
      -- unbound local (`curves_ib`) at line 124
      DiskM.throw .nameError
  -- lines 123-133: outer band, reusing the interface arc reversed
  let co0 ← addLineD pmid0 pout0
  let co1 ← addCircleArcD pout0 p_center pout1
  let co2 ← addLineD pout1 pmid1
  let curves_ob := [co0, co1, co2, -arc_interface]
  let arc_outer := co1
  let loop_ob ← addCurveLoopD curves_ob
  let surf_ob ← addPlaneSurfaceD [loop_ob]
  -- lines 134-142: outer bulk, only when a + rInner < rOuter
  let outerAdds ←
    if a + rInner < rOuter then do
      let lb0 ← addLineD pout0 po20
      let arc_bound ← addCircleArcD po20 p_center po21
      let lb1 ← addLineD po21 pout1
      let loop_bulk ← addCurveLoopD [lb0, arc_bound, lb1, -arc_outer]
      let bulk ← addPlaneSurfaceD [loop_bulk]
      pure [surf_ob, bulk]
    else
      pure [surf_ob]
  -- lines 144-150: set_transfinite; Python evaluates the argument lists
  -- left to right, and `curves_ib[3]` raises IndexError in the
  -- degenerate branch where curves_ib has three entries
  let r0 ← getIdx curves_ib 0
  let r1 ← getIdx curves_ib 2
  let r2 ← getIdx curves_ob 0
  let r3 ← getIdx curves_ob 2
  let c0 ← getIdx curves_ib 1
  let c1 ← getIdx curves_ib 3
  let c2 ← getIdx curves_ob 1
  let c3 ← getIdx curves_ob 3
  set_transfinite [r0, r1, r2, r3] [c0, c1, c2, c3]
    [(surf_ib, "Right"), (surf_ob, "Left")] ndr nda
  pure ({ t0 := t0, t1 := t1, in0 := pin0, in1 := pin1, mid0 := pmid0,
          mid1 := pmid1, out0 := pout0, out1 := pout1, o20 := po20,
          o21 := po21, arc_interface := arc_interface, surf_ib := surf_ib,
          surf_ob := surf_ob },
        innerAdds, outerAdds)

/-- The sector loop `for i in range(n_sectors)`, collecting the per-
sector data and the accumulated surface lists in order. -/
def sectorLoop (a rInner rOuter h_band h_outer : ℚ) (ndr nda : ℤ)
    (p_center : ℤ) : List ℕ → DiskM (List SectorData × List ℤ × List ℤ)
  | [] => pure ([], [], [])
  | i :: rest => do
    let (s, ia, oa) ← sectorStep a rInner rOuter h_band h_outer ndr nda p_center i
    let (ss, ias, oas) ← sectorLoop a rInner rOuter h_band h_outer ndr nda p_center rest
    pure (s :: ss, ia ++ ias, oa ++ oas)

/-- core_disk.py `Transfinite_Disk`.  The `n_sectors` parameter is
overwritten by the literal `4` at line 74; `InterfaceName` and
`OuterBoundaryName` do not occur in the body. -/
def Transfinite_Disk (a rInner rOuter h_band h_outer : ℚ) (n_sectors : ℕ)
    (InnerMaterialName OuterMaterialName InterfaceName OuterBoundaryName : String) :
    DiskM DiskOut := do
  ensure_gmsh_available
  gmshSetup
  -- parameter checks, lines 47-51
  if rInner - a < 0 then
    DiskM.throw (.valueError "rInner - a must be nonnegative.")
  else pure ()
  if rInner + a > rOuter then
    DiskM.throw (.valueError "rInner + a must be <= rOuter.")
  else pure ()
  -- transfinite parameters, lines 53-55
  let ndr := n_div_radial a h_band
  let nda := n_div_angular h_band
  let p_center ← addPointD 0 0 (meshSizeAt a rInner h_band h_outer 0)
  -- line 74: n_sectors is overwritten by the literal 4, so the loop
  -- `for i in range(n_sectors)` runs over range(4) = [0, 1, 2, 3]
  let (sectors, inner_surfaces, outer_surfaces) ←
    sectorLoop a rInner rOuter h_band h_outer ndr nda p_center [0, 1, 2, 3]
  -- lines 152-158: physical groups
  let innerGroupTag ← addPhysicalGroupD 2 inner_surfaces
  emitD (.setPhysicalName 2 innerGroupTag InnerMaterialName)
  let outerGroupTag ← addPhysicalGroupD 2 outer_surfaces
  emitD (.setPhysicalName 2 outerGroupTag OuterMaterialName)
  emitD .synchronize
  pure { sectors := sectors, inner_surfaces := inner_surfaces,
         outer_surfaces := outer_surfaces }

/-! ## Trace queries -/

/-- Whether an event creates a geometric primitive (point, curve,
surface, or curve loop). -/
def DiskEvent.isGeomPrimitive : DiskEvent → Bool
  | .addPoint _ _ _ _ => true
  | .addLine _ _ _ => true
  | .addCircleArc _ _ _ _ => true
  | .addCurveLoop _ _ => true
  | .addPlaneSurface _ _ => true
  | _ => false

/-- Whether an event creates the circle arc with tag `c`. -/
def createsArc (c : ℤ) : DiskEvent → Bool
  | .addCircleArc tag _ _ _ => tag == c
  | _ => false

/-- Whether an event creates a circle arc running from point `p` to
point `q`. -/
def createsArcBetween (p q : ℤ) : DiskEvent → Bool
  | .addCircleArc _ ps _ pe => ps == p && pe == q
  | _ => false

/-- Whether an event creates a curve loop referencing the signed curve
tag `c`. -/
def loopRefs (c : ℤ) : DiskEvent → Bool
  | .addCurveLoop _ cs => cs.contains c
  | _ => false

/-- Whether an event creates a physical group. -/
def DiskEvent.isPhysicalGroup : DiskEvent → Bool
  | .addPhysicalGroup _ _ _ => true
  | _ => false

/-- The kernel calls the initialization preamble makes, by initial flag
state: an isInitialized query, an initialize call when needed, a
current-model query, and a model add when needed. -/
def setupEvents : Bool → Bool → List DiskEvent
  | false, false => [.isInitializedQ, .gmshInit, .getCurrentQ, .modelAdd "TransfiniteDisk"]
  | false, true => [.isInitializedQ, .gmshInit, .getCurrentQ]
  | true, false => [.isInitializedQ, .getCurrentQ, .modelAdd "TransfiniteDisk"]
  | true, true => [.isInitializedQ, .getCurrentQ]

/-- Running the initialization preamble: both flags end up set and the
trace grows by exactly the setup events. -/
lemma gmshSetup_run (K : DiskKernel) :
    gmshSetup K =
      (Except.ok (),
       { K with initialized := true, hasModel := true,
                trace := (setupEvents K.initialized K.hasModel).reverse ++ K.trace }) := by
  cases hi : K.initialized <;> cases hm : K.hasModel <;>
    simp [gmshSetup, setupEvents, DiskM.get, emitD, bind, Bind.bind, pure, Pure.pure, hi, hm]

/-- Decidable equality on `Except`, for evaluating run results. -/
instance {ε α : Type} [DecidableEq ε] [DecidableEq α] : DecidableEq (Except ε α) := fun a b =>
  match a, b with
  | .ok x, .ok y => if h : x = y then .isTrue (by rw [h]) else .isFalse (by intro hc; cases hc; exact h rfl)
  | .error x, .error y => if h : x = y then .isTrue (by rw [h]) else .isFalse (by intro hc; cases hc; exact h rfl)
  | .ok _, .error _ => .isFalse (by intro hc; cases hc)
  | .error _, .ok _ => .isFalse (by intro hc; cases hc)

/-! ## Claims C1, C2, C3 -/

set_option maxHeartbeats 3200000 in
set_option maxRecDepth 16000 in
/-- C1: the claim says Transfinite_Disk builds exactly `n_sectors`
equal angular slices.  The code overwrites the argument with the
literal 4 (core_disk.py line 74): on the valid input
`a = 1/10, rInner = 1, rOuter = 3` with `n_sectors = 8` the run
succeeds but builds 4 sectors, whose spans are the four quarter
turns.  (Angles are recorded as fractions of `2*pi`.) -/
theorem C1_sector_count_hardcoded :
    (Transfinite_Disk (1/10) 1 3 (1/10) (1/2) 8 "InnerMaterial" "OuterMaterial"
        "Interface" "Outer" freshDiskKernel).1.map
      (fun o => (o.sectors.length, o.sectors.map (fun s => (s.t0, s.t1))))
      = Except.ok (4, [(0, 1/4), (1/4, 1/2), (1/2, 3/4), (3/4, 1)]) := by
  norm_num [Transfinite_Disk, gmshSetup_run, sectorLoop, sectorStep, make_pt,
    addPointD, addLineD, addCircleArcD, addCurveLoopD, addPlaneSurfaceD,
    addPhysicalGroupD, emitD, set_transfinite, getIdx, ensure_gmsh_available,
    DiskM.throw, meshSizeAt, n_div_radial, n_div_angular, pi_float,
    freshDiskKernel, setupEvents, Except.map]

/-- C2 counterexample: on the invalid input `a = 2, rInner = 1,
rOuter = 3` over a fresh kernel, Transfinite_Disk does raise
ValueError, but only after four kernel calls — including the
state-changing initialize and model-add calls — so the configuration
error is not raised "before any kernel call is made ... with zero
side effects" as the claim states. -/
theorem C2_counterexample :
    (Transfinite_Disk 2 1 3 (1/10) (1/2) 4 "InnerMaterial" "OuterMaterial"
        "Interface" "Outer" freshDiskKernel).1
      = Except.error (.valueError "rInner - a must be nonnegative.") ∧
    (Transfinite_Disk 2 1 3 (1/10) (1/2) 4 "InnerMaterial" "OuterMaterial"
        "Interface" "Outer" freshDiskKernel).2.events
      = [.isInitializedQ, .gmshInit, .getCurrentQ, .modelAdd "TransfiniteDisk"] := by
  constructor <;>
  norm_num [Transfinite_Disk, gmshSetup_run, ensure_gmsh_available,
    DiskM.throw, freshDiskKernel, setupEvents, DiskKernel.events]

/-- C2 (amended): for every invalid combination
(`rInner - a < 0` or `rInner + a > rOuter`) Transfinite_Disk raises
ValueError before any geometric primitive is created; the only kernel
calls preceding the raise are the initialization preamble
(isInitialized query, initialize if needed, current-model query, model
add if needed). -/
theorem C2_invalid_raises_before_geometry
    (a rInner rOuter h_band h_outer : ℚ) (n : ℕ) (nm1 nm2 nm3 nm4 : String)
    (K : DiskKernel) (hinv : rInner - a < 0 ∨ rOuter < rInner + a) :
    (∃ msg, (Transfinite_Disk a rInner rOuter h_band h_outer n nm1 nm2 nm3 nm4 K).1
        = Except.error (.valueError msg)) ∧
    (Transfinite_Disk a rInner rOuter h_band h_outer n nm1 nm2 nm3 nm4 K).2.events
        = K.events ++ setupEvents K.initialized K.hasModel := by
  by_cases h1 : rInner - a < 0
  · constructor
    · refine ⟨"rInner - a must be nonnegative.", ?_⟩
      simp [Transfinite_Disk, ensure_gmsh_available, bind, Bind.bind, pure, Pure.pure,
        gmshSetup_run, DiskM.throw, h1]
    · simp [Transfinite_Disk, ensure_gmsh_available, bind, Bind.bind, pure, Pure.pure,
        gmshSetup_run, DiskM.throw, h1, DiskKernel.events]
  · have h2 : rOuter < rInner + a := hinv.resolve_left h1
    constructor
    · refine ⟨"rInner + a must be <= rOuter.", ?_⟩
      simp [Transfinite_Disk, ensure_gmsh_available, bind, Bind.bind, pure, Pure.pure,
        gmshSetup_run, DiskM.throw, h1, h2]
    · simp [Transfinite_Disk, ensure_gmsh_available, bind, Bind.bind, pure, Pure.pure,
        gmshSetup_run, DiskM.throw, h1, h2, DiskKernel.events]

/-- C2 witness: the amended theorem applied at the concrete invalid
input `a = 2, rInner = 1, rOuter = 3` over a fresh kernel. -/
theorem C2_invalid_raises_before_geometry_witness :
    ((1 : ℚ) - 2 < 0 ∨ (3 : ℚ) < 1 + 2) ∧
    ((∃ msg, (Transfinite_Disk 2 1 3 (1/10) (1/2) 4 "InnerMaterial" "OuterMaterial"
          "Interface" "Outer" freshDiskKernel).1 = Except.error (.valueError msg)) ∧
      (Transfinite_Disk 2 1 3 (1/10) (1/2) 4 "InnerMaterial" "OuterMaterial"
          "Interface" "Outer" freshDiskKernel).2.events
        = freshDiskKernel.events ++ setupEvents freshDiskKernel.initialized freshDiskKernel.hasModel) :=
  ⟨by norm_num,
   C2_invalid_raises_before_geometry 2 1 3 (1/10) (1/2) 4 "InnerMaterial"
     "OuterMaterial" "Interface" "Outer" freshDiskKernel (by norm_num)⟩

set_option maxHeartbeats 3200000 in
set_option maxRecDepth 16000 in
/-- C3: in the degenerate case `rInner = a` (here
`a = 1, rInner = 1, rOuter = 3`) the claim says Transfinite_Disk
succeeds and assigns structured constraints to every band patch.  The
code instead raises IndexError: the degenerate branch builds a
three-curve `curves_ib`, and the `set_transfinite` call site
(core_disk.py line 146) accesses `curves_ib[3]`. -/
theorem C3_degenerate_raises_IndexError :
    (Transfinite_Disk 1 1 3 (1/10) (1/2) 4 "InnerMaterial" "OuterMaterial"
        "Interface" "Outer" freshDiskKernel).1
      = Except.error PyErr.indexError := by
  norm_num [Transfinite_Disk, gmshSetup_run, sectorLoop, sectorStep, make_pt,
    addPointD, addLineD, addCircleArcD, addCurveLoopD, addPlaneSurfaceD,
    addPhysicalGroupD, emitD, set_transfinite, getIdx, ensure_gmsh_available,
    DiskM.throw, meshSizeAt, n_div_radial, n_div_angular, pi_float,
    freshDiskKernel, setupEvents]

/-! ## Claims C4 and C8: the Size/Division Planner -/

/-- C4 counterexample: the claim's angular formula
`max(4, ceil((radius_reference * dTheta) / h_band))` disagrees with the
source formula at `h_band = 1/10`: the source computes 16 for every
geometry, while the claim's formula gives 32 at reference radius 2 and
48 at reference radius 3 (with the per-sector span `pi/2`).  The
source's angular count (core_disk.py line 55) takes no radius at all:
only `radius_reference = 1` would reconcile the two. -/
theorem C4_counterexample :
    n_div_angular (1/10) = 16 ∧
    n_div_angular_claimed 2 (pi_float/2) (1/10) = 32 ∧
    n_div_angular_claimed 3 (pi_float/2) (1/10) = 48 := by
  have e1 : (⌈((1:ℚ)/2 * pi_float) / (1/10)⌉ : ℤ) = 16 := by
    rw [Int.ceil_eq_iff]
    constructor <;> norm_num [pi_float]
  have e2 : (⌈(2:ℚ) * (pi_float/2) / (1/10)⌉ : ℤ) = 32 := by
    rw [Int.ceil_eq_iff]
    constructor <;> norm_num [pi_float]
  have e3 : (⌈(3:ℚ) * (pi_float/2) / (1/10)⌉ : ℤ) = 48 := by
    rw [Int.ceil_eq_iff]
    constructor <;> norm_num [pi_float]
  refine ⟨?_, ?_, ?_⟩
  · unfold n_div_angular
    rw [e1]
    norm_num
  · unfold n_div_angular_claimed
    rw [e2]
    norm_num
  · unfold n_div_angular_claimed
    rw [e3]
    norm_num

/-- C8: both division counts are at least 4 for every input, and both
are monotonically non-decreasing as `h_band` decreases (`h2 ≤ h1`,
counts at `h2` at least those at `h1`). -/
theorem C8_division_count_invariant (a h1 h2 : ℚ) (ha : 0 ≤ a)
    (h0 : 0 < h2) (hle : h2 ≤ h1) :
    4 ≤ n_div_radial a h1 ∧ 4 ≤ n_div_angular h1 ∧
    n_div_radial a h1 ≤ n_div_radial a h2 ∧
    n_div_angular h1 ≤ n_div_angular h2 := by
  have hpos1 : 0 < h1 := lt_of_lt_of_le h0 hle
  refine ⟨le_max_left _ _, le_max_left _ _, ?_, ?_⟩
  · refine max_le_max le_rfl (Int.ceil_le_ceil ?_)
    gcongr
  · refine max_le_max le_rfl (Int.ceil_le_ceil ?_)
    gcongr
    norm_num [pi_float]

/-- C8 witness: the invariant applied at `a = 1`, `h_band` decreasing
from `1/2` to `1/4`. -/
theorem C8_division_count_invariant_witness :
    (0 : ℚ) ≤ 1 ∧ (0 : ℚ) < 1/4 ∧ (1/4 : ℚ) ≤ 1/2 ∧
    (4 ≤ n_div_radial 1 (1/2) ∧ 4 ≤ n_div_angular (1/2) ∧
      n_div_radial 1 (1/2) ≤ n_div_radial 1 (1/4) ∧
      n_div_angular (1/2) ≤ n_div_angular (1/4)) :=
  ⟨by norm_num, by norm_num, by norm_num,
   C8_division_count_invariant 1 (1/2) (1/4) (by norm_num) (by norm_num) (by norm_num)⟩


/-- The Python locals a valid nondegenerate run with an outer bulk
leaves behind (explicit form, established by `Transfinite_Disk_run_bulk`). -/
def diskOutBulk : DiskOut :=
  {
    sectors :=
      [{ t0 := 0, t1 := 1 / 4, in0 := 2, in1 := 3, mid0 := 4, mid1 := 5, out0 := 6, out1 := 7, o20 := 8, o21 := 9,
          arc_interface := 2, surf_ib := 1, surf_ob := 3 },
        { t0 := 1 / 4, t1 := 1 / 2, in0 := 10, in1 := 11, mid0 := 12, mid1 := 13, out0 := 14, out1 := 15,
          o20 := 16, o21 := 17, arc_interface := 14, surf_ib := 5, surf_ob := 7 },
        { t0 := 1 / 2, t1 := 3 / 4, in0 := 18, in1 := 19, mid0 := 20, mid1 := 21, out0 := 22, out1 := 23,
          o20 := 24, o21 := 25, arc_interface := 26, surf_ib := 9, surf_ob := 11 },
        { t0 := 3 / 4, t1 := 1, in0 := 26, in1 := 27, mid0 := 28, mid1 := 29, out0 := 30, out1 := 31, o20 := 32,
          o21 := 33, arc_interface := 38, surf_ib := 13, surf_ob := 15 }],
    inner_surfaces := [1, 2, 5, 6, 9, 10, 13, 14], outer_surfaces := [3, 4, 7, 8, 11, 12, 15, 16] }

/-- The kernel state a valid nondegenerate run with an outer bulk
leaves behind. -/
def diskKernelBulk (a rI rO hb ho : ℚ) (nm1 nm2 : String) : DiskKernel :=
  { initialized := true, hasModel := true, nextPoint := 34, nextCurve := 49, nextLoop := 17, nextSurface := 17,
          nextPhys := 3,
          trace :=
            [DiskEvent.synchronize, DiskEvent.setPhysicalName 2 2 nm2,
              DiskEvent.addPhysicalGroup 2 2 [3, 4, 7, 8, 11, 12, 15, 16], DiskEvent.setPhysicalName 2 1 nm1,
              DiskEvent.addPhysicalGroup 1 2 [1, 2, 5, 6, 9, 10, 13, 14],
              DiskEvent.setTransfinite [37, 39, 43, 45] [38, 40, 44, -38] [(13, "Right"), (15, "Left")]
                (n_div_radial a hb) (n_div_angular hb),
              DiskEvent.addPlaneSurface 16 [16], DiskEvent.addCurveLoop 16 [46, 47, 48, -44], DiskEvent.addLine 48 33 31,
              DiskEvent.addCircleArc 47 32 1 33, DiskEvent.addLine 46 30 32, DiskEvent.addPlaneSurface 15 [15],
              DiskEvent.addCurveLoop 15 [43, 44, 45, -38], DiskEvent.addLine 45 31 29, DiskEvent.addCircleArc 44 30 1 31,
              DiskEvent.addLine 43 28 30, DiskEvent.addPlaneSurface 14 [14], DiskEvent.addCurveLoop 14 [41, -40, 42],
              DiskEvent.addLine 42 27 1, DiskEvent.addLine 41 1 26, DiskEvent.addPlaneSurface 13 [13],
              DiskEvent.addCurveLoop 13 [37, 38, 39, 40], DiskEvent.addCircleArc 40 27 1 26, DiskEvent.addLine 39 29 27,
              DiskEvent.addCircleArc 38 28 1 29, DiskEvent.addLine 37 26 28,
              DiskEvent.addPoint 33 rO 1 (meshSizeAt a rI hb ho rO),
              DiskEvent.addPoint 32 rO (3 / 4) (meshSizeAt a rI hb ho rO),
              DiskEvent.addPoint 31 (rI + a) 1 (meshSizeAt a rI hb ho (rI + a)),
              DiskEvent.addPoint 30 (rI + a) (3 / 4) (meshSizeAt a rI hb ho (rI + a)),
              DiskEvent.addPoint 29 rI 1 (meshSizeAt a rI hb ho rI),
              DiskEvent.addPoint 28 rI (3 / 4) (meshSizeAt a rI hb ho rI),
              DiskEvent.addPoint 27 (rI - a) 1 (meshSizeAt a rI hb ho (rI - a)),
              DiskEvent.addPoint 26 (rI - a) (3 / 4) (meshSizeAt a rI hb ho (rI - a)),
              DiskEvent.setTransfinite [25, 27, 31, 33] [26, 28, 32, -26] [(9, "Right"), (11, "Left")] (n_div_radial a hb)
                (n_div_angular hb),
              DiskEvent.addPlaneSurface 12 [12], DiskEvent.addCurveLoop 12 [34, 35, 36, -32], DiskEvent.addLine 36 25 23,
              DiskEvent.addCircleArc 35 24 1 25, DiskEvent.addLine 34 22 24, DiskEvent.addPlaneSurface 11 [11],
              DiskEvent.addCurveLoop 11 [31, 32, 33, -26], DiskEvent.addLine 33 23 21, DiskEvent.addCircleArc 32 22 1 23,
              DiskEvent.addLine 31 20 22, DiskEvent.addPlaneSurface 10 [10], DiskEvent.addCurveLoop 10 [29, -28, 30],
              DiskEvent.addLine 30 19 1, DiskEvent.addLine 29 1 18, DiskEvent.addPlaneSurface 9 [9],
              DiskEvent.addCurveLoop 9 [25, 26, 27, 28], DiskEvent.addCircleArc 28 19 1 18, DiskEvent.addLine 27 21 19,
              DiskEvent.addCircleArc 26 20 1 21, DiskEvent.addLine 25 18 20,
              DiskEvent.addPoint 25 rO (3 / 4) (meshSizeAt a rI hb ho rO),
              DiskEvent.addPoint 24 rO (1 / 2) (meshSizeAt a rI hb ho rO),
              DiskEvent.addPoint 23 (rI + a) (3 / 4) (meshSizeAt a rI hb ho (rI + a)),
              DiskEvent.addPoint 22 (rI + a) (1 / 2) (meshSizeAt a rI hb ho (rI + a)),
              DiskEvent.addPoint 21 rI (3 / 4) (meshSizeAt a rI hb ho rI),
              DiskEvent.addPoint 20 rI (1 / 2) (meshSizeAt a rI hb ho rI),
              DiskEvent.addPoint 19 (rI - a) (3 / 4) (meshSizeAt a rI hb ho (rI - a)),
              DiskEvent.addPoint 18 (rI - a) (1 / 2) (meshSizeAt a rI hb ho (rI - a)),
              DiskEvent.setTransfinite [13, 15, 19, 21] [14, 16, 20, -14] [(5, "Right"), (7, "Left")] (n_div_radial a hb)
                (n_div_angular hb),
              DiskEvent.addPlaneSurface 8 [8], DiskEvent.addCurveLoop 8 [22, 23, 24, -20], DiskEvent.addLine 24 17 15,
              DiskEvent.addCircleArc 23 16 1 17, DiskEvent.addLine 22 14 16, DiskEvent.addPlaneSurface 7 [7],
              DiskEvent.addCurveLoop 7 [19, 20, 21, -14], DiskEvent.addLine 21 15 13, DiskEvent.addCircleArc 20 14 1 15,
              DiskEvent.addLine 19 12 14, DiskEvent.addPlaneSurface 6 [6], DiskEvent.addCurveLoop 6 [17, -16, 18],
              DiskEvent.addLine 18 11 1, DiskEvent.addLine 17 1 10, DiskEvent.addPlaneSurface 5 [5],
              DiskEvent.addCurveLoop 5 [13, 14, 15, 16], DiskEvent.addCircleArc 16 11 1 10, DiskEvent.addLine 15 13 11,
              DiskEvent.addCircleArc 14 12 1 13, DiskEvent.addLine 13 10 12,
              DiskEvent.addPoint 17 rO (1 / 2) (meshSizeAt a rI hb ho rO),
              DiskEvent.addPoint 16 rO (1 / 4) (meshSizeAt a rI hb ho rO),
              DiskEvent.addPoint 15 (rI + a) (1 / 2) (meshSizeAt a rI hb ho (rI + a)),
              DiskEvent.addPoint 14 (rI + a) (1 / 4) (meshSizeAt a rI hb ho (rI + a)),
              DiskEvent.addPoint 13 rI (1 / 2) (meshSizeAt a rI hb ho rI),
              DiskEvent.addPoint 12 rI (1 / 4) (meshSizeAt a rI hb ho rI),
              DiskEvent.addPoint 11 (rI - a) (1 / 2) (meshSizeAt a rI hb ho (rI - a)),
              DiskEvent.addPoint 10 (rI - a) (1 / 4) (meshSizeAt a rI hb ho (rI - a)),
              DiskEvent.setTransfinite [1, 3, 7, 9] [2, 4, 8, -2] [(1, "Right"), (3, "Left")] (n_div_radial a hb)
                (n_div_angular hb),
              DiskEvent.addPlaneSurface 4 [4], DiskEvent.addCurveLoop 4 [10, 11, 12, -8], DiskEvent.addLine 12 9 7,
              DiskEvent.addCircleArc 11 8 1 9, DiskEvent.addLine 10 6 8, DiskEvent.addPlaneSurface 3 [3],
              DiskEvent.addCurveLoop 3 [7, 8, 9, -2], DiskEvent.addLine 9 7 5, DiskEvent.addCircleArc 8 6 1 7,
              DiskEvent.addLine 7 4 6, DiskEvent.addPlaneSurface 2 [2], DiskEvent.addCurveLoop 2 [5, -4, 6],
              DiskEvent.addLine 6 3 1, DiskEvent.addLine 5 1 2, DiskEvent.addPlaneSurface 1 [1],
              DiskEvent.addCurveLoop 1 [1, 2, 3, 4], DiskEvent.addCircleArc 4 3 1 2, DiskEvent.addLine 3 5 3,
              DiskEvent.addCircleArc 2 4 1 5, DiskEvent.addLine 1 2 4,
              DiskEvent.addPoint 9 rO (1 / 4) (meshSizeAt a rI hb ho rO),
              DiskEvent.addPoint 8 rO 0 (meshSizeAt a rI hb ho rO),
              DiskEvent.addPoint 7 (rI + a) (1 / 4) (meshSizeAt a rI hb ho (rI + a)),
              DiskEvent.addPoint 6 (rI + a) 0 (meshSizeAt a rI hb ho (rI + a)),
              DiskEvent.addPoint 5 rI (1 / 4) (meshSizeAt a rI hb ho rI),
              DiskEvent.addPoint 4 rI 0 (meshSizeAt a rI hb ho rI),
              DiskEvent.addPoint 3 (rI - a) (1 / 4) (meshSizeAt a rI hb ho (rI - a)),
              DiskEvent.addPoint 2 (rI - a) 0 (meshSizeAt a rI hb ho (rI - a)),
              DiskEvent.addPoint 1 0 0 (meshSizeAt a rI hb ho 0), DiskEvent.modelAdd "TransfiniteDisk",
              DiskEvent.getCurrentQ, DiskEvent.gmshInit, DiskEvent.isInitializedQ] }

/-- The Python locals a valid nondegenerate run without an outer bulk
(`rI + a = rO`) leaves behind. -/
def diskOutNoBulk : DiskOut :=
  {
    sectors :=
      [{ t0 := 0, t1 := 1 / 4, in0 := 2, in1 := 3, mid0 := 4, mid1 := 5, out0 := 6, out1 := 7, o20 := 8, o21 := 9,
          arc_interface := 2, surf_ib := 1, surf_ob := 3 },
        { t0 := 1 / 4, t1 := 1 / 2, in0 := 10, in1 := 11, mid0 := 12, mid1 := 13, out0 := 14, out1 := 15,
          o20 := 16, o21 := 17, arc_interface := 11, surf_ib := 4, surf_ob := 6 },
        { t0 := 1 / 2, t1 := 3 / 4, in0 := 18, in1 := 19, mid0 := 20, mid1 := 21, out0 := 22, out1 := 23,
          o20 := 24, o21 := 25, arc_interface := 20, surf_ib := 7, surf_ob := 9 },
        { t0 := 3 / 4, t1 := 1, in0 := 26, in1 := 27, mid0 := 28, mid1 := 29, out0 := 30, out1 := 31, o20 := 32,
          o21 := 33, arc_interface := 29, surf_ib := 10, surf_ob := 12 }],
    inner_surfaces := [1, 2, 4, 5, 7, 8, 10, 11], outer_surfaces := [3, 6, 9, 12] }

/-- The kernel state a valid nondegenerate run without an outer bulk
leaves behind. -/
def diskKernelNoBulk (a rI rO hb ho : ℚ) (nm1 nm2 : String) : DiskKernel :=
  { initialized := true, hasModel := true, nextPoint := 34, nextCurve := 37, nextLoop := 13, nextSurface := 13,
          nextPhys := 3,
          trace :=
            [DiskEvent.synchronize, DiskEvent.setPhysicalName 2 2 nm2, DiskEvent.addPhysicalGroup 2 2 [3, 6, 9, 12],
              DiskEvent.setPhysicalName 2 1 nm1, DiskEvent.addPhysicalGroup 1 2 [1, 2, 4, 5, 7, 8, 10, 11],
              DiskEvent.setTransfinite [28, 30, 34, 36] [29, 31, 35, -29] [(10, "Right"), (12, "Left")]
                (n_div_radial a hb) (n_div_angular hb),
              DiskEvent.addPlaneSurface 12 [12], DiskEvent.addCurveLoop 12 [34, 35, 36, -29], DiskEvent.addLine 36 31 29,
              DiskEvent.addCircleArc 35 30 1 31, DiskEvent.addLine 34 28 30, DiskEvent.addPlaneSurface 11 [11],
              DiskEvent.addCurveLoop 11 [32, -31, 33], DiskEvent.addLine 33 27 1, DiskEvent.addLine 32 1 26,
              DiskEvent.addPlaneSurface 10 [10], DiskEvent.addCurveLoop 10 [28, 29, 30, 31],
              DiskEvent.addCircleArc 31 27 1 26, DiskEvent.addLine 30 29 27, DiskEvent.addCircleArc 29 28 1 29,
              DiskEvent.addLine 28 26 28, DiskEvent.addPoint 33 rO 1 (meshSizeAt a rI hb ho rO),
              DiskEvent.addPoint 32 rO (3 / 4) (meshSizeAt a rI hb ho rO),
              DiskEvent.addPoint 31 (rI + a) 1 (meshSizeAt a rI hb ho (rI + a)),
              DiskEvent.addPoint 30 (rI + a) (3 / 4) (meshSizeAt a rI hb ho (rI + a)),
              DiskEvent.addPoint 29 rI 1 (meshSizeAt a rI hb ho rI),
              DiskEvent.addPoint 28 rI (3 / 4) (meshSizeAt a rI hb ho rI),
              DiskEvent.addPoint 27 (rI - a) 1 (meshSizeAt a rI hb ho (rI - a)),
              DiskEvent.addPoint 26 (rI - a) (3 / 4) (meshSizeAt a rI hb ho (rI - a)),
              DiskEvent.setTransfinite [19, 21, 25, 27] [20, 22, 26, -20] [(7, "Right"), (9, "Left")] (n_div_radial a hb)
                (n_div_angular hb),
              DiskEvent.addPlaneSurface 9 [9], DiskEvent.addCurveLoop 9 [25, 26, 27, -20], DiskEvent.addLine 27 23 21,
              DiskEvent.addCircleArc 26 22 1 23, DiskEvent.addLine 25 20 22, DiskEvent.addPlaneSurface 8 [8],
              DiskEvent.addCurveLoop 8 [23, -22, 24], DiskEvent.addLine 24 19 1, DiskEvent.addLine 23 1 18,
              DiskEvent.addPlaneSurface 7 [7], DiskEvent.addCurveLoop 7 [19, 20, 21, 22],
              DiskEvent.addCircleArc 22 19 1 18, DiskEvent.addLine 21 21 19, DiskEvent.addCircleArc 20 20 1 21,
              DiskEvent.addLine 19 18 20, DiskEvent.addPoint 25 rO (3 / 4) (meshSizeAt a rI hb ho rO),
              DiskEvent.addPoint 24 rO (1 / 2) (meshSizeAt a rI hb ho rO),
              DiskEvent.addPoint 23 (rI + a) (3 / 4) (meshSizeAt a rI hb ho (rI + a)),
              DiskEvent.addPoint 22 (rI + a) (1 / 2) (meshSizeAt a rI hb ho (rI + a)),
              DiskEvent.addPoint 21 rI (3 / 4) (meshSizeAt a rI hb ho rI),
              DiskEvent.addPoint 20 rI (1 / 2) (meshSizeAt a rI hb ho rI),
              DiskEvent.addPoint 19 (rI - a) (3 / 4) (meshSizeAt a rI hb ho (rI - a)),
              DiskEvent.addPoint 18 (rI - a) (1 / 2) (meshSizeAt a rI hb ho (rI - a)),
              DiskEvent.setTransfinite [10, 12, 16, 18] [11, 13, 17, -11] [(4, "Right"), (6, "Left")] (n_div_radial a hb)
                (n_div_angular hb),
              DiskEvent.addPlaneSurface 6 [6], DiskEvent.addCurveLoop 6 [16, 17, 18, -11], DiskEvent.addLine 18 15 13,
              DiskEvent.addCircleArc 17 14 1 15, DiskEvent.addLine 16 12 14, DiskEvent.addPlaneSurface 5 [5],
              DiskEvent.addCurveLoop 5 [14, -13, 15], DiskEvent.addLine 15 11 1, DiskEvent.addLine 14 1 10,
              DiskEvent.addPlaneSurface 4 [4], DiskEvent.addCurveLoop 4 [10, 11, 12, 13],
              DiskEvent.addCircleArc 13 11 1 10, DiskEvent.addLine 12 13 11, DiskEvent.addCircleArc 11 12 1 13,
              DiskEvent.addLine 10 10 12, DiskEvent.addPoint 17 rO (1 / 2) (meshSizeAt a rI hb ho rO),
              DiskEvent.addPoint 16 rO (1 / 4) (meshSizeAt a rI hb ho rO),
              DiskEvent.addPoint 15 (rI + a) (1 / 2) (meshSizeAt a rI hb ho (rI + a)),
              DiskEvent.addPoint 14 (rI + a) (1 / 4) (meshSizeAt a rI hb ho (rI + a)),
              DiskEvent.addPoint 13 rI (1 / 2) (meshSizeAt a rI hb ho rI),
              DiskEvent.addPoint 12 rI (1 / 4) (meshSizeAt a rI hb ho rI),
              DiskEvent.addPoint 11 (rI - a) (1 / 2) (meshSizeAt a rI hb ho (rI - a)),
              DiskEvent.addPoint 10 (rI - a) (1 / 4) (meshSizeAt a rI hb ho (rI - a)),
              DiskEvent.setTransfinite [1, 3, 7, 9] [2, 4, 8, -2] [(1, "Right"), (3, "Left")] (n_div_radial a hb)
                (n_div_angular hb),
              DiskEvent.addPlaneSurface 3 [3], DiskEvent.addCurveLoop 3 [7, 8, 9, -2], DiskEvent.addLine 9 7 5,
              DiskEvent.addCircleArc 8 6 1 7, DiskEvent.addLine 7 4 6, DiskEvent.addPlaneSurface 2 [2],
              DiskEvent.addCurveLoop 2 [5, -4, 6], DiskEvent.addLine 6 3 1, DiskEvent.addLine 5 1 2,
              DiskEvent.addPlaneSurface 1 [1], DiskEvent.addCurveLoop 1 [1, 2, 3, 4], DiskEvent.addCircleArc 4 3 1 2,
              DiskEvent.addLine 3 5 3, DiskEvent.addCircleArc 2 4 1 5, DiskEvent.addLine 1 2 4,
              DiskEvent.addPoint 9 rO (1 / 4) (meshSizeAt a rI hb ho rO),
              DiskEvent.addPoint 8 rO 0 (meshSizeAt a rI hb ho rO),
              DiskEvent.addPoint 7 (rI + a) (1 / 4) (meshSizeAt a rI hb ho (rI + a)),
              DiskEvent.addPoint 6 (rI + a) 0 (meshSizeAt a rI hb ho (rI + a)),
              DiskEvent.addPoint 5 rI (1 / 4) (meshSizeAt a rI hb ho rI),
              DiskEvent.addPoint 4 rI 0 (meshSizeAt a rI hb ho rI),
              DiskEvent.addPoint 3 (rI - a) (1 / 4) (meshSizeAt a rI hb ho (rI - a)),
              DiskEvent.addPoint 2 (rI - a) 0 (meshSizeAt a rI hb ho (rI - a)),
              DiskEvent.addPoint 1 0 0 (meshSizeAt a rI hb ho 0), DiskEvent.modelAdd "TransfiniteDisk",
              DiskEvent.getCurrentQ, DiskEvent.gmshInit, DiskEvent.isInitializedQ] }

set_option maxHeartbeats 3200000 in
set_option maxRecDepth 16000 in
/-- Symbolic evaluation of a valid nondegenerate run with an outer
bulk over a fresh kernel. -/
lemma Transfinite_Disk_run_bulk (a rI rO hb ho : ℚ) (n : ℕ)
    (nm1 nm2 nm3 nm4 : String)
    (h1 : rI - a > 0) (h2 : ¬(rI + a > rO)) (hbulk : a + rI < rO) :
    Transfinite_Disk a rI rO hb ho n nm1 nm2 nm3 nm4 freshDiskKernel
      = (Except.ok diskOutBulk, diskKernelBulk a rI rO hb ho nm1 nm2) := by
  have hv1 : ¬(rI - a < 0) := by linarith
  norm_num [Transfinite_Disk, gmshSetup_run, sectorLoop, sectorStep, make_pt,
    addPointD, addLineD, addCircleArcD, addCurveLoopD, addPlaneSurfaceD,
    addPhysicalGroupD, emitD, set_transfinite, getIdx, ensure_gmsh_available,
    DiskM.throw, freshDiskKernel, setupEvents, hv1, h1, h2, hbulk,
    diskOutBulk, diskKernelBulk]

set_option maxHeartbeats 3200000 in
set_option maxRecDepth 16000 in
/-- Symbolic evaluation of a valid nondegenerate run without an outer
bulk over a fresh kernel. -/
lemma Transfinite_Disk_run_nobulk (a rI rO hb ho : ℚ) (n : ℕ)
    (nm1 nm2 nm3 nm4 : String)
    (h1 : rI - a > 0) (h2 : ¬(rI + a > rO)) (hbulk : ¬(a + rI < rO)) :
    Transfinite_Disk a rI rO hb ho n nm1 nm2 nm3 nm4 freshDiskKernel
      = (Except.ok diskOutNoBulk, diskKernelNoBulk a rI rO hb ho nm1 nm2) := by
  have hv1 : ¬(rI - a < 0) := by linarith
  norm_num [Transfinite_Disk, gmshSetup_run, sectorLoop, sectorStep, make_pt,
    addPointD, addLineD, addCircleArcD, addCurveLoopD, addPlaneSurfaceD,
    addPhysicalGroupD, emitD, set_transfinite, getIdx, ensure_gmsh_available,
    DiskM.throw, freshDiskKernel, setupEvents, hv1, h1, h2, hbulk,
    diskOutNoBulk, diskKernelNoBulk]

/-! ## Claims C5, C4 (amended part), C10 -/

/-- A run of Transfinite_Disk over a fresh kernel. -/
def diskRun (a rI rO hb ho : ℚ) (n : ℕ) (nm1 nm2 nm3 nm4 : String) :
    Except PyErr DiskOut × DiskKernel :=
  Transfinite_Disk a rI rO hb ho n nm1 nm2 nm3 nm4 freshDiskKernel

/-- The sectors a successful fresh-kernel run builds (empty if the run
raises). -/
def runSectors (a rI rO hb ho : ℚ) (n : ℕ) (nm1 nm2 nm3 nm4 : String) : List SectorData :=
  match (diskRun a rI rO hb ho n nm1 nm2 nm3 nm4).1 with
  | .ok o => o.sectors
  | .error _ => []

/-- Whether an event declares transfinite constraints. -/
def DiskEvent.isSetTransfinite : DiskEvent → Bool
  | .setTransfinite _ _ _ _ _ => true
  | _ => false

/-- Whether an event creates or names a physical group. -/
def DiskEvent.isGroupTagging : DiskEvent → Bool
  | .addPhysicalGroup _ _ _ => true
  | .setPhysicalName _ _ _ => true
  | _ => false

set_option maxHeartbeats 1600000 in
/-- C5: in every valid nondegenerate run, for each sector the
interface arc (the arc between the sector's two points at radius
rInner) is created by exactly one addCircleArc call, and exactly two
curve loops reference its handle — one with positive, one with
negative sign — so the outer band reuses the inner band's arc handle
negated and never duplicates the curve. -/
theorem C5_interface_arc_shared_once (a rI rO hb ho : ℚ) (n : ℕ)
    (nm1 nm2 nm3 nm4 : String) (h1 : 0 < rI - a) (h2 : rI + a ≤ rO) :
    ∀ s ∈ runSectors a rI rO hb ho n nm1 nm2 nm3 nm4,
      (diskRun a rI rO hb ho n nm1 nm2 nm3 nm4).2.trace.countP (createsArc s.arc_interface) = 1 ∧
      (diskRun a rI rO hb ho n nm1 nm2 nm3 nm4).2.trace.countP (createsArcBetween s.mid0 s.mid1) = 1 ∧
      (diskRun a rI rO hb ho n nm1 nm2 nm3 nm4).2.trace.countP (loopRefs s.arc_interface) = 1 ∧
      (diskRun a rI rO hb ho n nm1 nm2 nm3 nm4).2.trace.countP (loopRefs (-s.arc_interface)) = 1 := by
  have h1g : rI - a > 0 := h1
  have h2g : ¬(rI + a > rO) := by linarith
  by_cases hbulk : a + rI < rO
  · rw [runSectors, diskRun, Transfinite_Disk_run_bulk a rI rO hb ho n nm1 nm2 nm3 nm4 h1g h2g hbulk]
    simp only [diskOutBulk, diskKernelBulk, List.mem_cons, List.not_mem_nil, or_false]
    rintro s (rfl | rfl | rfl | rfl) <;>
      simp [createsArc, createsArcBetween, loopRefs, List.countP_cons]
  · rw [runSectors, diskRun, Transfinite_Disk_run_nobulk a rI rO hb ho n nm1 nm2 nm3 nm4 h1g h2g hbulk]
    simp only [diskOutNoBulk, diskKernelNoBulk, List.mem_cons, List.not_mem_nil, or_false]
    rintro s (rfl | rfl | rfl | rfl) <;>
      simp [createsArc, createsArcBetween, loopRefs, List.countP_cons]

/-- C5 witness: the shared-interface invariant applied to the first
sector of the concrete valid run `a = 1/10, rInner = 1, rOuter = 3`
(whose interface arc has handle 2 and rInner-radius points 4, 5). -/
theorem C5_interface_arc_shared_once_witness :
    (0:ℚ) < 1 - 1/10 ∧ (1:ℚ) + 1/10 ≤ 3 ∧
    ((diskRun (1/10) 1 3 (1/10) (1/2) 4 "A" "B" "C" "D").2.trace.countP (createsArc 2) = 1 ∧
     (diskRun (1/10) 1 3 (1/10) (1/2) 4 "A" "B" "C" "D").2.trace.countP (createsArcBetween 4 5) = 1 ∧
     (diskRun (1/10) 1 3 (1/10) (1/2) 4 "A" "B" "C" "D").2.trace.countP (loopRefs 2) = 1 ∧
     (diskRun (1/10) 1 3 (1/10) (1/2) 4 "A" "B" "C" "D").2.trace.countP (loopRefs (-2)) = 1) :=
  ⟨by norm_num, by norm_num,
   C5_interface_arc_shared_once (1/10) 1 3 (1/10) (1/2) 4 "A" "B" "C" "D"
     (by norm_num) (by norm_num)
     { t0 := 0, t1 := 1/4, in0 := 2, in1 := 3, mid0 := 4, mid1 := 5, out0 := 6,
       out1 := 7, o20 := 8, o21 := 9, arc_interface := 2, surf_ib := 1, surf_ob := 3 }
     (by
       rw [runSectors, diskRun,
         Transfinite_Disk_run_bulk (1/10) 1 3 (1/10) (1/2) 4 "A" "B" "C" "D"
           (by norm_num) (by norm_num) (by norm_num)]
       simp [diskOutBulk])⟩

set_option maxHeartbeats 1600000 in
/-- C4 (amended): the radial count is `max(4, ceil(2a / h_band))` as
the claim states, but the angular count is the radius-independent
`max(4, ceil((0.5 * pi) / h_band))`; every transfinite declaration a
valid nondegenerate run makes carries exactly these two counts,
whatever the radii are. -/
theorem C4_division_counts_in_run (a rI rO hb ho : ℚ) (n : ℕ)
    (nm1 nm2 nm3 nm4 : String) (h1 : 0 < rI - a) (h2 : rI + a ≤ rO) :
    n_div_radial a hb = max 4 (Int.ceil (2 * a / hb)) ∧
    n_div_angular hb = max 4 (Int.ceil ((1/2 * pi_float) / hb)) ∧
    ((diskRun a rI rO hb ho n nm1 nm2 nm3 nm4).2.events.filter DiskEvent.isSetTransfinite
        = [.setTransfinite [1, 3, 7, 9] [2, 4, 8, -2] [(1, "Right"), (3, "Left")]
             (n_div_radial a hb) (n_div_angular hb),
           .setTransfinite [13, 15, 19, 21] [14, 16, 20, -14] [(5, "Right"), (7, "Left")]
             (n_div_radial a hb) (n_div_angular hb),
           .setTransfinite [25, 27, 31, 33] [26, 28, 32, -26] [(9, "Right"), (11, "Left")]
             (n_div_radial a hb) (n_div_angular hb),
           .setTransfinite [37, 39, 43, 45] [38, 40, 44, -38] [(13, "Right"), (15, "Left")]
             (n_div_radial a hb) (n_div_angular hb)] ∨
     (diskRun a rI rO hb ho n nm1 nm2 nm3 nm4).2.events.filter DiskEvent.isSetTransfinite
        = [.setTransfinite [1, 3, 7, 9] [2, 4, 8, -2] [(1, "Right"), (3, "Left")]
             (n_div_radial a hb) (n_div_angular hb),
           .setTransfinite [10, 12, 16, 18] [11, 13, 17, -11] [(4, "Right"), (6, "Left")]
             (n_div_radial a hb) (n_div_angular hb),
           .setTransfinite [19, 21, 25, 27] [20, 22, 26, -20] [(7, "Right"), (9, "Left")]
             (n_div_radial a hb) (n_div_angular hb),
           .setTransfinite [28, 30, 34, 36] [29, 31, 35, -29] [(10, "Right"), (12, "Left")]
             (n_div_radial a hb) (n_div_angular hb)]) := by
  refine ⟨rfl, rfl, ?_⟩
  have h1g : rI - a > 0 := h1
  have h2g : ¬(rI + a > rO) := by linarith
  by_cases hbulk : a + rI < rO
  · left
    rw [diskRun, Transfinite_Disk_run_bulk a rI rO hb ho n nm1 nm2 nm3 nm4 h1g h2g hbulk]
    simp [diskKernelBulk, DiskKernel.events, DiskEvent.isSetTransfinite]
  · right
    rw [diskRun, Transfinite_Disk_run_nobulk a rI rO hb ho n nm1 nm2 nm3 nm4 h1g h2g hbulk]
    simp [diskKernelNoBulk, DiskKernel.events, DiskEvent.isSetTransfinite]

/-- C4 witness: the amended division-count statement at the concrete
valid run `a = 1/10, rInner = 1, rOuter = 3, h_band = 1/10`. -/
theorem C4_division_counts_in_run_witness :
    (0:ℚ) < 1 - 1/10 ∧ (1:ℚ) + 1/10 ≤ 3 ∧
    (n_div_radial (1/10) (1/10) = max 4 (Int.ceil (2 * (1/10) / (1/10 : ℚ))) ∧
     n_div_angular (1/10) = max 4 (Int.ceil ((1/2 * pi_float) / (1/10 : ℚ))) ∧
     ((diskRun (1/10) 1 3 (1/10) (1/2) 4 "A" "B" "C" "D").2.events.filter DiskEvent.isSetTransfinite
        = [.setTransfinite [1, 3, 7, 9] [2, 4, 8, -2] [(1, "Right"), (3, "Left")]
             (n_div_radial (1/10) (1/10)) (n_div_angular (1/10)),
           .setTransfinite [13, 15, 19, 21] [14, 16, 20, -14] [(5, "Right"), (7, "Left")]
             (n_div_radial (1/10) (1/10)) (n_div_angular (1/10)),
           .setTransfinite [25, 27, 31, 33] [26, 28, 32, -26] [(9, "Right"), (11, "Left")]
             (n_div_radial (1/10) (1/10)) (n_div_angular (1/10)),
           .setTransfinite [37, 39, 43, 45] [38, 40, 44, -38] [(13, "Right"), (15, "Left")]
             (n_div_radial (1/10) (1/10)) (n_div_angular (1/10))] ∨
      (diskRun (1/10) 1 3 (1/10) (1/2) 4 "A" "B" "C" "D").2.events.filter DiskEvent.isSetTransfinite
        = [.setTransfinite [1, 3, 7, 9] [2, 4, 8, -2] [(1, "Right"), (3, "Left")]
             (n_div_radial (1/10) (1/10)) (n_div_angular (1/10)),
           .setTransfinite [10, 12, 16, 18] [11, 13, 17, -11] [(4, "Right"), (6, "Left")]
             (n_div_radial (1/10) (1/10)) (n_div_angular (1/10)),
           .setTransfinite [19, 21, 25, 27] [20, 22, 26, -20] [(7, "Right"), (9, "Left")]
             (n_div_radial (1/10) (1/10)) (n_div_angular (1/10)),
           .setTransfinite [28, 30, 34, 36] [29, 31, 35, -29] [(10, "Right"), (12, "Left")]
             (n_div_radial (1/10) (1/10)) (n_div_angular (1/10))])) :=
  ⟨by norm_num, by norm_num,
   C4_division_counts_in_run (1/10) 1 3 (1/10) (1/2) 4 "A" "B" "C" "D"
     (by norm_num) (by norm_num)⟩

set_option maxHeartbeats 1600000 in
/-- C10: the InterfaceName and OuterBoundaryName arguments do not
occur in the body of Transfinite_Disk, so any two calls differing only
in them produce identical results and identical kernel-call traces;
moreover in every valid nondegenerate run the only group-tagging
kernel calls are the two dimension-2 physical groups named by
InnerMaterialName and OuterMaterialName — no curve (dimension-1) group
is ever created or named. -/
theorem C10_boundary_names_have_no_effect (a rI rO hb ho : ℚ) (n : ℕ)
    (nm1 nm2 : String) (h1 : 0 < rI - a) (h2 : rI + a ≤ rO) :
    (∀ (i1 o1 i2 o2 : String) (K : DiskKernel),
      Transfinite_Disk a rI rO hb ho n nm1 nm2 i1 o1 K
        = Transfinite_Disk a rI rO hb ho n nm1 nm2 i2 o2 K) ∧
    (∀ (i1 o1 : String),
      (diskRun a rI rO hb ho n nm1 nm2 i1 o1).2.events.filter DiskEvent.isGroupTagging
          = [.addPhysicalGroup 1 2 diskOutBulk.inner_surfaces, .setPhysicalName 2 1 nm1,
             .addPhysicalGroup 2 2 diskOutBulk.outer_surfaces, .setPhysicalName 2 2 nm2] ∨
      (diskRun a rI rO hb ho n nm1 nm2 i1 o1).2.events.filter DiskEvent.isGroupTagging
          = [.addPhysicalGroup 1 2 diskOutNoBulk.inner_surfaces, .setPhysicalName 2 1 nm1,
             .addPhysicalGroup 2 2 diskOutNoBulk.outer_surfaces, .setPhysicalName 2 2 nm2]) := by
  have h1g : rI - a > 0 := h1
  have h2g : ¬(rI + a > rO) := by linarith
  refine ⟨fun i1 o1 i2 o2 K => rfl, fun i1 o1 => ?_⟩
  by_cases hbulk : a + rI < rO
  · left
    rw [diskRun, Transfinite_Disk_run_bulk a rI rO hb ho n nm1 nm2 i1 o1 h1g h2g hbulk]
    simp [diskKernelBulk, diskOutBulk, DiskKernel.events, DiskEvent.isGroupTagging]
  · right
    rw [diskRun, Transfinite_Disk_run_nobulk a rI rO hb ho n nm1 nm2 i1 o1 h1g h2g hbulk]
    simp [diskKernelNoBulk, diskOutNoBulk, DiskKernel.events, DiskEvent.isGroupTagging]

/-- C10 witness: the name-independence statement at the concrete valid
run `a = 1/10, rInner = 1, rOuter = 3`, with the two boundary-name
arguments instantiated to two different pairs of strings. -/
theorem C10_boundary_names_have_no_effect_witness :
    (0:ℚ) < 1 - 1/10 ∧ (1:ℚ) + 1/10 ≤ 3 ∧
    Transfinite_Disk (1/10) 1 3 (1/10) (1/2) 4 "InnerMaterial" "OuterMaterial"
        "Interface" "Outer" freshDiskKernel
      = Transfinite_Disk (1/10) 1 3 (1/10) (1/2) 4 "InnerMaterial" "OuterMaterial"
        "SomethingElse" "Entirely" freshDiskKernel ∧
    ((diskRun (1/10) 1 3 (1/10) (1/2) 4 "InnerMaterial" "OuterMaterial" "Interface" "Outer").2.events.filter
        DiskEvent.isGroupTagging
        = [.addPhysicalGroup 1 2 diskOutBulk.inner_surfaces, .setPhysicalName 2 1 "InnerMaterial",
           .addPhysicalGroup 2 2 diskOutBulk.outer_surfaces, .setPhysicalName 2 2 "OuterMaterial"] ∨
     (diskRun (1/10) 1 3 (1/10) (1/2) 4 "InnerMaterial" "OuterMaterial" "Interface" "Outer").2.events.filter
        DiskEvent.isGroupTagging
        = [.addPhysicalGroup 1 2 diskOutNoBulk.inner_surfaces, .setPhysicalName 2 1 "InnerMaterial",
           .addPhysicalGroup 2 2 diskOutNoBulk.outer_surfaces, .setPhysicalName 2 2 "OuterMaterial"]) :=
  ⟨by norm_num, by norm_num,
   (C10_boundary_names_have_no_effect (1/10) 1 3 (1/10) (1/2) 4 "InnerMaterial"
       "OuterMaterial" (by norm_num) (by norm_num)).1 "Interface" "Outer"
     "SomethingElse" "Entirely" freshDiskKernel,
   (C10_boundary_names_have_no_effect (1/10) 1 3 (1/10) (1/2) 4 "InnerMaterial"
       "OuterMaterial" (by norm_num) (by norm_num)).2 "Interface" "Outer"⟩

/-! ## Kernel model for the sphere-wedge builder (src/T_Conf/mesh.py)

The sweep helpers interrogate the kernel (bounding boxes, boundaries,
edge types), so the kernel state carries oracle functions answering
those queries, a trace of the calls made (most-recent-first), and tag
counters for the entities a revolve creates. -/

/-- An axis-aligned bounding box as returned by
`gmsh.model.getBoundingBox`: `(xmin, ymin, zmin, xmax, ymax, zmax)`. -/
structure BBox where
  xmin : ℚ
  ymin : ℚ
  zmin : ℚ
  xmax : ℚ
  ymax : ℚ
  zmax : ℚ
  deriving DecidableEq, Repr

/-- One kernel call of mesh.py. -/
inductive MeshEvent where
  | revolve (surf : ℤ) (ax ay az px py pz angle : ℚ) (outDimTags : List (ℤ × ℤ))
  | synchronize
  | getBoundingBoxQ (dim tag : ℤ)
  | getBoundaryQ (dim tag : ℤ)
  | getTypeQ (dim tag : ℤ)
  | setTransfinite (radial circular : List ℤ) (surfaces : List (ℤ × String))
      (ndr ndc : ℤ) (bump : ℚ)
  | setTransfiniteSurface (surf : ℤ) (arrangement : Option String) (corners : List ℤ)
  deriving DecidableEq, Repr

/-- The abstract gmsh state as seen by mesh.py: tag counters for the
entities a revolve creates, the call trace (most-recent-first), and
oracles answering geometric queries — `bboxOf` a surface's bounding
box, `surfBndOf` a surface's signed boundary curves, `curveTypeOf` an
edge's type string, `curveBndOf` an edge's endpoint dim-tags, and
`numLateral` the number of lateral surfaces a revolve of the given
surface creates. -/
structure MeshKernel where
  nextSurface : ℤ
  nextVolume : ℤ
  trace : List MeshEvent
  bboxOf : ℤ → BBox
  surfBndOf : ℤ → List (ℤ × ℤ)
  curveTypeOf : ℤ → String
  curveBndOf : ℤ → List (ℤ × ℤ)
  numLateral : ℤ → ℕ

/-- State-and-exception monad for the embedded sweep helpers. -/
def MeshM (α : Type) : Type := MeshKernel → Except PyErr α × MeshKernel

instance : Monad MeshM where
  pure a := fun k => (Except.ok a, k)
  bind m f := fun k =>
    match m k with
    | (Except.ok a, k2) => f a k2
    | (Except.error e, k2) => (Except.error e, k2)

/-- Raise a Python exception. -/
def MeshM.throw {α : Type} (e : PyErr) : MeshM α := fun k => (Except.error e, k)

/-- Unfolding lemma for `bind` on the mesh monad. -/
@[simp] lemma MeshM.bind_eval {α β : Type} (m : MeshM α) (f : α → MeshM β) (k : MeshKernel) :
    (m >>= f) k =
      match m k with
      | (Except.ok a, k2) => f a k2
      | (Except.error e, k2) => (Except.error e, k2) := rfl

/-- Unfolding lemma for `pure` on the mesh monad. -/
@[simp] lemma MeshM.pure_eval {α : Type} (a : α) (k : MeshKernel) :
    (pure a : MeshM α) k = (Except.ok a, k) := rfl

/-- Record one kernel call. -/
def emitM (e : MeshEvent) : MeshM Unit :=
  fun k => (Except.ok (), { k with trace := e :: k.trace })

/-- The `n` consecutive tags starting at `start`. -/
def tagRange (start : ℤ) (n : ℕ) : List ℤ := (List.range n).map (fun j => start + (j : ℤ))

/-- `gmsh.model.geo.revolve([(2, surf)], ax.., px.., angle)`: per the
gmsh geo kernel, revolving a plane surface returns the swept top
surface first, then the new volume, then one lateral surface per
boundary curve of the revolved surface (their count is the
`numLateral` oracle). -/
def revolveOp (surf : ℤ) (ax ay az px py pz angle : ℚ) : MeshM (List (ℤ × ℤ)) := fun k =>
  let out : List (ℤ × ℤ) :=
    (2, k.nextSurface) :: (3, k.nextVolume) ::
      (tagRange (k.nextSurface + 1) (k.numLateral surf)).map (fun t => (2, t))
  (Except.ok out,
   { k with nextSurface := k.nextSurface + 1 + (k.numLateral surf : ℤ),
            nextVolume := k.nextVolume + 1,
            trace := .revolve surf ax ay az px py pz angle out :: k.trace })

/-- `next(v for (dim, v) in out if dim == 3)`: the first dim-3 entry,
StopIteration if none. -/
def nextDim3 (out : List (ℤ × ℤ)) : MeshM ℤ :=
  match out.find? (fun dt => dt.1 == 3) with
  | some dt => pure dt.2
  | none => MeshM.throw .stopIteration

/-- `gmsh.model.getBoundingBox(dim, tag)`. -/
def getBoundingBoxOp (dim tag : ℤ) : MeshM BBox := fun k =>
  (Except.ok (k.bboxOf tag), { k with trace := .getBoundingBoxQ dim tag :: k.trace })

/-- `gmsh.model.getBoundary([(2, tag)], combined=False, recursive=False)`. -/
def getSurfaceBoundary (tag : ℤ) : MeshM (List (ℤ × ℤ)) := fun k =>
  (Except.ok (k.surfBndOf tag), { k with trace := .getBoundaryQ 2 tag :: k.trace })

/-- `gmsh.model.getType(1, tag)`. -/
def getTypeOp (tag : ℤ) : MeshM String := fun k =>
  (Except.ok (k.curveTypeOf tag), { k with trace := .getTypeQ 1 tag :: k.trace })

/-- `gmsh.model.getBoundary([(1, tag)], combined=False, recursive=False)`. -/
def getCurveBoundary (tag : ℤ) : MeshM (List (ℤ × ℤ)) := fun k =>
  (Except.ok (k.curveBndOf tag), { k with trace := .getBoundaryQ 1 tag :: k.trace })

/-- `gmsh.model.geo.synchronize()`. -/
def synchronizeM : MeshM Unit := emitM .synchronize

/-- Modelled from the spec: `T_Conf.utils.ensure_gmsh_available` (not
under src/) is an availability check with no model side effects. -/
def ensure_gmsh_availableM : MeshM Unit := pure ()

/-- Modelled from the spec: `T_Conf.transfinite.set_transfinite` (not
under src/) declares per-edge division counts with a progression bias
and per-surface arrangements; recorded as one kernel event. -/
def set_transfiniteM (radial circular : List ℤ) (surfaces : List (ℤ × String))
    (ndr ndc : ℤ) (bump : ℚ) : MeshM Unit :=
  emitM (.setTransfinite radial circular surfaces ndr ndc bump)

/-- Modelled from the spec: `T_Conf.utils.find_missing_numbers` is not
under src/.  Per spec sections 4.2 and 9, the resolver finds "within a
bounded small integer ID range, the first ID value absent from the
corner-ID set": the second component holds the range values absent
from the given list, in range order (the first component, which the
caller discards, holds the range values present in the list). -/
def find_missing_numbers (xs : List ℤ) (rng : List ℤ) : List ℤ × List ℤ :=
  (rng.filter (fun v => xs.contains v), rng.filter (fun v => !(xs.contains v)))

/-- Python `list.index(v)`: position of the first occurrence. -/
def pyIndex : List ℤ → ℤ → Option ℕ
  | [], _ => none
  | x :: xs, v => if x = v then some 0 else (pyIndex xs v).map (· + 1)

/-- Python `list.index(v)` as an action: ValueError when absent. -/
def listIndexM (xs : List ℤ) (v : ℤ) : MeshM ℕ :=
  match pyIndex xs v with
  | some i => pure i
  | none => MeshM.throw (.valueError "x not in list")

/-- Python `xs[0]`: IndexError when empty. -/
def listHeadM : List ℤ → MeshM ℤ
  | x :: _ => pure x
  | [] => MeshM.throw .indexError

/-- `np.arange(2, 21)` as a list of integers. -/
def arange2to21 : List ℤ :=
  [2, 3, 4, 5, 6, 7, 8, 9, 10, 11, 12, 13, 14, 15, 16, 17, 18, 19, 20]

/-! ## Sweep constraint application (mesh.py, _apply_transfinite_sweep) -/

/-- The edge-classification loop of mesh.py lines 124-137: walk the
surface's boundary entries; for each dim-1 entry query its type
(append to `curved_curves` if "Circle", else to `radial_curves` if
"Line"), query its endpoints, and when there are exactly two of them
append each to the deduplicated `corner_points` in first-seen order.
The accumulators are passed as `(radial, curved, corners)`. -/
def classifyEdges : List (ℤ × ℤ) → List ℤ × List ℤ × List ℤ →
    MeshM (List ℤ × List ℤ × List ℤ)
  | [], acc => pure acc
  | (dim_c, tag_c) :: rest, (radial, curved, corners) => do
    if dim_c == 1 then do
      let etype ← getTypeOp |tag_c|
      let rc :=
        if etype == "Circle" then (radial, curved ++ [tag_c])
        else if etype == "Line" then (radial ++ [tag_c], curved)
        else (radial, curved)
      let radial2 := rc.1
      let curved2 := rc.2
      let endpts ← getCurveBoundary tag_c
      let corners2 :=
        match endpts with
        | [pa, pb] =>
          let c1 := if corners.contains pa.2 then corners else corners ++ [pa.2]
          if c1.contains pb.2 then c1 else c1 ++ [pb.2]
        | _ => corners
      classifyEdges rest (radial2, curved2, corners2)
    else
      classifyEdges rest (radial, curved, corners)

/-- One iteration of the surface loop of mesh.py lines 108-158:
compute the arrangement, classify the boundary edges, declare the
edge/surface transfinite constraints, then resolve corners for the
3-corner case. -/
def processSurf (ndr ndc : ℤ) (bump : ℚ) (surface_type : String) (s_tag : ℤ) :
    MeshM Unit := do
  let use_arr ←
    if surface_type == "inner" then
      pure "Right"
    else do
      let bbox ← getBoundingBoxOp 2 s_tag
      let tol : ℚ := 1/1000000
      let avg_z := (bbox.zmin + bbox.zmax) / 2
      pure (if |avg_z| < tol ∧ bbox.xmin ≥ 0 ∧ bbox.xmax ≥ 0 then "Right" else "Left")
  let bnd ← getSurfaceBoundary s_tag
  let acc ← classifyEdges bnd ([], [], [])
  let radial_curves := acc.1
  let curved_curves := acc.2.1
  let corner_points := acc.2.2
  set_transfiniteM radial_curves curved_curves [(s_tag, use_arr)] ndr ndc bump
  if corner_points.length == 3 then
    if corner_points.contains 1 then do
      let i ← listIndexM corner_points 1
      emitM (.setTransfiniteSurface s_tag (some use_arr)
        (corner_points.drop i ++ corner_points.take i))
    else do
      let missing := (find_missing_numbers corner_points arange2to21).2
      let m0 ← listHeadM missing
      let i ← listIndexM corner_points m0
      emitM (.setTransfiniteSurface s_tag none
        (corner_points.drop i ++ corner_points.take i))
  else
    emitM (.setTransfiniteSurface s_tag (some use_arr) [])

/-- The loop `for s_tag in new_surfs` of mesh.py line 108. -/
def processSurfs (ndr ndc : ℤ) (bump : ℚ) (surface_type : String) :
    List ℤ → MeshM Unit
  | [] => pure ()
  | s :: rest => do
    processSurf ndr ndc bump surface_type s
    processSurfs ndr ndc bump surface_type rest

/-- mesh.py `_apply_transfinite_sweep`. -/
def _apply_transfinite_sweep (sweep_results : List (ℤ × ℤ))
    (n_div_radial n_div_curved : ℤ) (bumpcoef : ℚ) (surface_type : String) :
    MeshM Unit := do
  let new_surfs := (sweep_results.filter (fun dt => dt.1 == 2)).map (fun dt => dt.2)
  synchronizeM
  processSurfs n_div_radial n_div_curved bumpcoef surface_type new_surfs

/-- mesh.py `revolve_surface`: two independent kernel revolutions by
`+angle` and `-angle`, extraction of the two volume tags, then
optional transfinite application to both sweeps' surfaces. -/
def revolve_surface (ax ay az px py pz : ℚ) (angle_sweep : ℚ) (surface_loop : ℤ)
    (n_div_radial n_div_curved : ℤ) (bumpcoef : ℚ) (surface_type : String)
    (apply_transfinite : Bool) : MeshM (ℤ × ℤ) := do
  ensure_gmsh_availableM
  let out_plus ← revolveOp surface_loop ax ay az px py pz angle_sweep
  let vol_plus ← nextDim3 out_plus
  let out_minus ← revolveOp surface_loop ax ay az px py pz (-angle_sweep)
  let vol_minus ← nextDim3 out_minus
  if apply_transfinite then do
    _apply_transfinite_sweep out_plus n_div_radial n_div_curved bumpcoef surface_type
    _apply_transfinite_sweep out_minus n_div_radial n_div_curved bumpcoef surface_type
  else pure ()
  pure (vol_plus, vol_minus)

/-! ## Mesh trace queries and arrangement rules -/

/-- Whether an event is a kernel revolution call. -/
def MeshEvent.isRevolve : MeshEvent → Bool
  | .revolve _ _ _ _ _ _ _ _ _ => true
  | _ => false

/-- Whether an event is a `set_transfinite` declaration. -/
def MeshEvent.isSetTransfinite : MeshEvent → Bool
  | .setTransfinite _ _ _ _ _ _ => true
  | _ => false

/-- The arrangement mesh.py lines 110-116 actually compute: "inner"
surfaces always get "Right"; any other type gets "Right" exactly when
the mid-height of the bounding box's z-range is within `1e-6` of zero
and both `bbox[0]` (xmin) and `bbox[3]` (xmax) are nonnegative —
nothing constrains y, and only the z-midpoint is tested. -/
def use_arr_rule (surface_type : String) (b : BBox) : String :=
  if surface_type == "inner" then "Right"
  else if |(b.zmin + b.zmax) / 2| < 1/1000000 ∧ b.xmin ≥ 0 ∧ b.xmax ≥ 0 then "Right"
  else "Left"

/-- Formalization of the claim's arrangement rule (spec section 4.2):
"outer"-type surfaces are "Right" exactly when the bounding box lies
at the symmetry plane within tolerance `1e-6` (both z-extremes within
tolerance) and within the non-negative quadrant of the other two axes
(x and y nonnegative).  Stated from the spec's words, for comparison
with the source rule `use_arr_rule`. -/
def claimArrangement (surface_type : String) (b : BBox) : String :=
  if surface_type == "inner" then "Right"
  else if (|b.zmin| < 1/1000000 ∧ |b.zmax| < 1/1000000) ∧ b.xmin ≥ 0 ∧ b.ymin ≥ 0 then "Right"
  else "Left"

/-- A concrete kernel whose one swept surface (tag 5) has a bounding
box spanning `z ∈ [-1, 1]` and `y ∈ [-1, 1]` with `x ∈ [0, 1]`, and a
4-line boundary with corner points 3, 4, 5, 6. -/
def K6 : MeshKernel :=
  { nextSurface := 1, nextVolume := 1, trace := [],
    bboxOf := fun _ => ⟨0, -1, -1, 1, 1, 1⟩,
    surfBndOf := fun _ => [(1, 11), (1, 12), (1, 13), (1, 14)],
    curveTypeOf := fun _ => "Line",
    curveBndOf := fun t =>
      if t = 11 then [(0, 3), (0, 4)]
      else if t = 12 then [(0, 4), (0, 5)]
      else if t = 13 then [(0, 5), (0, 6)]
      else [(0, 6), (0, 3)],
    numLateral := fun _ => 2 }

/-- A concrete kernel whose one swept surface (tag 5) has a 3-line
boundary with deduplicated corner points 3, 4, 5 — and no corner with
the center-point handle 1. -/
def K7 : MeshKernel :=
  { nextSurface := 1, nextVolume := 1, trace := [],
    bboxOf := fun _ => ⟨0, 0, 0, 0, 0, 0⟩,
    surfBndOf := fun _ => [(1, 11), (1, 12), (1, 13)],
    curveTypeOf := fun _ => "Line",
    curveBndOf := fun t =>
      if t = 11 then [(0, 3), (0, 4)]
      else if t = 12 then [(0, 4), (0, 5)]
      else [(0, 5), (0, 3)],
    numLateral := fun _ => 2 }

/-! ## Claims C6 (counterexample) and C7 -/

/-- C6 counterexample: on a swept "outer" surface whose bounding box is
`(0, -1, -1, 1, 1, 1)` — symmetric about the z-plane but reaching into
negative y — the code assigns arrangement "Right" (the z-midpoint is 0
and xmin, xmax are nonnegative), while the claim's rule ("box lies at
the symmetry plane and within the non-negative quadrant of the other
two axes") yields "Left". -/
theorem C6_counterexample :
    MeshEvent.setTransfinite [11, 12, 13, 14] [] [(5, "Right")] 4 4 (1/5)
      ∈ (_apply_transfinite_sweep [(2, 5)] 4 4 (1/5) "outer" K6).2.trace ∧
    claimArrangement "outer" ⟨0, -1, -1, 1, 1, 1⟩ = "Left" := by
  constructor
  · norm_num [_apply_transfinite_sweep, processSurfs, processSurf, classifyEdges,
      getBoundingBoxOp, getSurfaceBoundary, getTypeOp, getCurveBoundary,
      synchronizeM, emitM, set_transfiniteM, listIndexM, listHeadM, pyIndex,
      find_missing_numbers, arange2to21, K6, MeshM.throw,
      show ("outer" = "inner") = False from by simp,
      show ("Line" = "Circle") = False from by simp]
  · norm_num [claimArrangement, show ("outer" = "inner") = False from by simp]

/-- C7: the claim says that for a 3-corner swept surface without the
center-point handle the Corner Resolver completes without error.  With
`find_missing_numbers` as the spec describes it (first range ID absent
from the corner-ID set), the resolved ID is by construction not in the
corner list, so `corner_points.index(missing[0])` (mesh.py line 154)
raises ValueError — here on a surface with corner points 3, 4, 5,
where the resolved ID is 2. -/
theorem C7_corner_resolver_raises :
    (_apply_transfinite_sweep [(2, 5)] 4 4 (1/5) "inner" K7).1
      = Except.error (PyErr.valueError "x not in list") := by
  norm_num [_apply_transfinite_sweep, processSurfs, processSurf, classifyEdges,
    getBoundingBoxOp, getSurfaceBoundary, getTypeOp, getCurveBoundary,
    synchronizeM, emitM, set_transfiniteM, listIndexM, listHeadM, pyIndex,
    find_missing_numbers, arange2to21, K7, MeshM.throw,
    show ("Line" = "Circle") = False from by simp]

/-! ## Structure of sweep-application runs -/

/-- Combined structural facts about the edge-classification loop: it
never raises, it leaves every oracle untouched, it adds no revolution
call, and every event it adds is a query (never a transfinite
declaration). -/
lemma classifyEdges_spec (bnd : List (ℤ × ℤ)) :
    ∀ (acc : List ℤ × List ℤ × List ℤ) (K : MeshKernel),
    ∃ res K2, classifyEdges bnd acc K = (Except.ok res, K2) ∧
      K2.bboxOf = K.bboxOf ∧
      K2.trace.filter MeshEvent.isRevolve = K.trace.filter MeshEvent.isRevolve ∧
      ∀ e ∈ K2.trace, e ∈ K.trace ∨ (e.isRevolve = false ∧ e.isSetTransfinite = false) := by
  induction bnd with
  | nil =>
    intro acc K
    exact ⟨acc, K, rfl, rfl, rfl, fun e he => Or.inl he⟩
  | cons hd rest ih =>
    intro acc K
    obtain ⟨dim_c, tag_c⟩ := hd
    obtain ⟨radial, curved, corners⟩ := acc
    by_cases h1 : dim_c = 1
    · subst h1
      simp only [classifyEdges, MeshM.bind_eval, MeshM.pure_eval, getTypeOp,
        getCurveBoundary, beq_self_eq_true, if_true, ite_true]
      obtain ⟨res, K2, hrun, hbb, hfil, hmem⟩ := ih _ _
      refine ⟨res, K2, hrun, ?_, ?_, ?_⟩
      · rw [hbb]
      · rw [hfil]
        simp [List.filter, MeshEvent.isRevolve]
      · intro e he
        rcases hmem e he with h2 | h2
        · simp only [List.mem_cons] at h2
          rcases h2 with rfl | rfl | h2
          · exact Or.inr ⟨rfl, rfl⟩
          · exact Or.inr ⟨rfl, rfl⟩
          · exact Or.inl h2
        · exact Or.inr h2
    · have h1b : (dim_c == 1) = false := by simpa using h1
      simp only [classifyEdges, h1b, Bool.false_eq_true, if_false, ite_false]
      exact ih _ _

/-- Combined structural facts about one surface-processing step of the
sweep loop (mesh.py lines 108-158): it leaves every oracle untouched,
adds no revolution call, and every transfinite declaration it adds
carries the given division counts and bias and declares exactly the
processed surface, with the arrangement the source rule computes from
the surface's (oracle) bounding box. -/
lemma processSurf_spec (ndr ndc : ℤ) (bump : ℚ) (stype : String) (s : ℤ) (K : MeshKernel) :
    ((processSurf ndr ndc bump stype s) K).2.bboxOf = K.bboxOf ∧
    (((processSurf ndr ndc bump stype s) K).2.trace.filter MeshEvent.isRevolve
      = K.trace.filter MeshEvent.isRevolve) ∧
    ∀ e ∈ ((processSurf ndr ndc bump stype s) K).2.trace,
      e ∈ K.trace ∨
      (e.isRevolve = false ∧
       ∀ rad cir surfs n1 n2 b, e = MeshEvent.setTransfinite rad cir surfs n1 n2 b →
         n1 = ndr ∧ n2 = ndc ∧ b = bump ∧ surfs = [(s, use_arr_rule stype (K.bboxOf s))]) := by
  by_cases hin : (stype == "inner") = true
  case pos =>
    obtain ⟨acc, K2, hrun, hbb, hfil, hmem⟩ :=
      classifyEdges_spec (K.surfBndOf s) ([], [], [])
        { K with trace := MeshEvent.getBoundaryQ 2 s :: K.trace }
    have hrule : use_arr_rule stype (K.bboxOf s) = "Right" := by
      simp only [use_arr_rule, hin, ite_true]
    have hmem2 : ∀ e ∈ K2.trace, e ∈ K.trace ∨
        (e.isRevolve = false ∧
         ∀ rad cir surfs n1 n2 b, e = MeshEvent.setTransfinite rad cir surfs n1 n2 b →
           n1 = ndr ∧ n2 = ndc ∧ b = bump ∧ surfs = [(s, use_arr_rule stype (K.bboxOf s))]) := by
      intro e he
      rcases hmem e he with h2 | h2
      · simp only [List.mem_cons] at h2
        rcases h2 with rfl | h2
        · exact Or.inr ⟨rfl, fun _ _ _ _ _ _ heq => by cases heq⟩
        · exact Or.inl h2
      · exact Or.inr ⟨h2.1, fun rad cir surfs n1 n2 b heq => by
          rw [heq] at h2
          simp [MeshEvent.isSetTransfinite] at h2⟩
    have hfil2 : K2.trace.filter MeshEvent.isRevolve = K.trace.filter MeshEvent.isRevolve := by
      rw [hfil]
      simp [List.filter_cons, MeshEvent.isRevolve]
    simp only [processSurf, MeshM.bind_eval, MeshM.pure_eval, hin, ite_true,
      getSurfaceBoundary, set_transfiniteM, emitM, listIndexM, listHeadM,
      MeshM.throw, hrun]
    cases hlen : acc.2.2.length == 3 with
    | false =>
      simp only [hlen, Bool.false_eq_true, if_false, ite_false, emitM, MeshM.throw, MeshM.bind_eval, MeshM.pure_eval]
      refine ⟨by simp [emitM, hbb], by simp [emitM, List.filter_cons, MeshEvent.isRevolve, hfil2], ?_⟩
      intro e he
      simp only [List.mem_cons] at he
      rcases he with rfl | rfl | he
      · exact Or.inr ⟨rfl, fun _ _ _ _ _ _ heq => by cases heq⟩
      · exact Or.inr ⟨rfl, fun rad cir surfs n1 n2 b heq => by
          obtain ⟨-, -, h3, h4, h5, h6⟩ := MeshEvent.setTransfinite.inj heq
          exact ⟨h4.symm, h5.symm, h6.symm, by rw [← h3, hrule]⟩⟩
      · exact hmem2 e he
    | true =>
      simp only [hlen, if_true, ite_true, emitM, MeshM.throw, MeshM.bind_eval, MeshM.pure_eval]
      cases hc1 : acc.2.2.contains 1 with
      | true =>
        simp only [hc1, if_true, ite_true, emitM, MeshM.throw, MeshM.bind_eval, MeshM.pure_eval]
        cases hpi : pyIndex acc.2.2 1 with
        | some i =>
          simp only [hpi, emitM, MeshM.throw, MeshM.bind_eval, MeshM.pure_eval]
          refine ⟨by simp [emitM, hbb], by simp [emitM, List.filter_cons, MeshEvent.isRevolve, hfil2], ?_⟩
          intro e he
          simp only [List.mem_cons] at he
          rcases he with rfl | rfl | he
          · exact Or.inr ⟨rfl, fun _ _ _ _ _ _ heq => by cases heq⟩
          · exact Or.inr ⟨rfl, fun rad cir surfs n1 n2 b heq => by
              obtain ⟨-, -, h3, h4, h5, h6⟩ := MeshEvent.setTransfinite.inj heq
              exact ⟨h4.symm, h5.symm, h6.symm, by rw [← h3, hrule]⟩⟩
          · exact hmem2 e he
        | none =>
          simp only [hpi, emitM, MeshM.throw, MeshM.bind_eval, MeshM.pure_eval]
          refine ⟨by simp [emitM, hbb], by simp [emitM, List.filter_cons, MeshEvent.isRevolve, hfil2], ?_⟩
          intro e he
          simp only [List.mem_cons] at he
          rcases he with rfl | he
          · exact Or.inr ⟨rfl, fun rad cir surfs n1 n2 b heq => by
              obtain ⟨-, -, h3, h4, h5, h6⟩ := MeshEvent.setTransfinite.inj heq
              exact ⟨h4.symm, h5.symm, h6.symm, by rw [← h3, hrule]⟩⟩
          · exact hmem2 e he
      | false =>
        simp only [hc1, Bool.false_eq_true, if_false, ite_false, emitM, MeshM.throw, MeshM.bind_eval, MeshM.pure_eval]
        cases hms : (find_missing_numbers acc.2.2 arange2to21).2 with
        | nil =>
          simp only [hms, emitM, MeshM.throw, MeshM.bind_eval, MeshM.pure_eval]
          refine ⟨by simp [emitM, hbb], by simp [emitM, List.filter_cons, MeshEvent.isRevolve, hfil2], ?_⟩
          intro e he
          simp only [List.mem_cons] at he
          rcases he with rfl | he
          · exact Or.inr ⟨rfl, fun rad cir surfs n1 n2 b heq => by
              obtain ⟨-, -, h3, h4, h5, h6⟩ := MeshEvent.setTransfinite.inj heq
              exact ⟨h4.symm, h5.symm, h6.symm, by rw [← h3, hrule]⟩⟩
          · exact hmem2 e he
        | cons m0 ms =>
          simp only [hms, emitM, MeshM.throw, MeshM.bind_eval, MeshM.pure_eval]
          cases hpi2 : pyIndex acc.2.2 m0 with
          | some i =>
            simp only [hpi2, emitM, MeshM.throw, MeshM.bind_eval, MeshM.pure_eval]
            refine ⟨by simp [emitM, hbb], by simp [emitM, List.filter_cons, MeshEvent.isRevolve, hfil2], ?_⟩
            intro e he
            simp only [List.mem_cons] at he
            rcases he with rfl | rfl | he
            · exact Or.inr ⟨rfl, fun _ _ _ _ _ _ heq => by cases heq⟩
            · exact Or.inr ⟨rfl, fun rad cir surfs n1 n2 b heq => by
                obtain ⟨-, -, h3, h4, h5, h6⟩ := MeshEvent.setTransfinite.inj heq
                exact ⟨h4.symm, h5.symm, h6.symm, by rw [← h3, hrule]⟩⟩
            · exact hmem2 e he
          | none =>
            simp only [hpi2, emitM, MeshM.throw, MeshM.bind_eval, MeshM.pure_eval]
            refine ⟨by simp [emitM, hbb], by simp [emitM, List.filter_cons, MeshEvent.isRevolve, hfil2], ?_⟩
            intro e he
            simp only [List.mem_cons] at he
            rcases he with rfl | he
            · exact Or.inr ⟨rfl, fun rad cir surfs n1 n2 b heq => by
                obtain ⟨-, -, h3, h4, h5, h6⟩ := MeshEvent.setTransfinite.inj heq
                exact ⟨h4.symm, h5.symm, h6.symm, by rw [← h3, hrule]⟩⟩
            · exact hmem2 e he
  case neg =>
    have hin2 : (stype == "inner") = false := by
      simpa using hin
    obtain ⟨acc, K2, hrun, hbb, hfil, hmem⟩ :=
      classifyEdges_spec (K.surfBndOf s) ([], [], [])
        { K with trace := MeshEvent.getBoundaryQ 2 s :: MeshEvent.getBoundingBoxQ 2 s :: K.trace }
    have hrule : use_arr_rule stype (K.bboxOf s)
        = (if |((K.bboxOf s).zmin + (K.bboxOf s).zmax) / 2| < 1/1000000 ∧
              (K.bboxOf s).xmin ≥ 0 ∧ (K.bboxOf s).xmax ≥ 0 then "Right" else "Left") := by
      simp only [use_arr_rule, hin2, Bool.false_eq_true, if_false, ite_false]
    have hmem2 : ∀ e ∈ K2.trace, e ∈ K.trace ∨
        (e.isRevolve = false ∧
         ∀ rad cir surfs n1 n2 b, e = MeshEvent.setTransfinite rad cir surfs n1 n2 b →
           n1 = ndr ∧ n2 = ndc ∧ b = bump ∧ surfs = [(s, use_arr_rule stype (K.bboxOf s))]) := by
      intro e he
      rcases hmem e he with h2 | h2
      · simp only [List.mem_cons] at h2
        rcases h2 with rfl | rfl | h2
        · exact Or.inr ⟨rfl, fun _ _ _ _ _ _ heq => by cases heq⟩
        · exact Or.inr ⟨rfl, fun _ _ _ _ _ _ heq => by cases heq⟩
        · exact Or.inl h2
      · exact Or.inr ⟨h2.1, fun rad cir surfs n1 n2 b heq => by
          rw [heq] at h2
          simp [MeshEvent.isSetTransfinite] at h2⟩
    have hfil2 : K2.trace.filter MeshEvent.isRevolve = K.trace.filter MeshEvent.isRevolve := by
      rw [hfil]
      simp [List.filter_cons, MeshEvent.isRevolve]
    simp only [processSurf, MeshM.bind_eval, MeshM.pure_eval, hin2, Bool.false_eq_true,
      if_false, ite_false, getBoundingBoxOp, getSurfaceBoundary, set_transfiniteM,
      emitM, listIndexM, listHeadM, MeshM.throw, hrun]
    cases hlen : acc.2.2.length == 3 with
    | false =>
      simp only [hlen, Bool.false_eq_true, if_false, ite_false, emitM, MeshM.throw, MeshM.bind_eval, MeshM.pure_eval]
      refine ⟨by simp [emitM, hbb], by simp [emitM, List.filter_cons, MeshEvent.isRevolve, hfil2], ?_⟩
      intro e he
      simp only [List.mem_cons] at he
      rcases he with rfl | rfl | he
      · exact Or.inr ⟨rfl, fun _ _ _ _ _ _ heq => by cases heq⟩
      · exact Or.inr ⟨rfl, fun rad cir surfs n1 n2 b heq => by
          obtain ⟨-, -, h3, h4, h5, h6⟩ := MeshEvent.setTransfinite.inj heq
          exact ⟨h4.symm, h5.symm, h6.symm, by rw [← h3, hrule]⟩⟩
      · exact hmem2 e he
    | true =>
      simp only [hlen, if_true, ite_true, emitM, MeshM.throw, MeshM.bind_eval, MeshM.pure_eval]
      cases hc1 : acc.2.2.contains 1 with
      | true =>
        simp only [hc1, if_true, ite_true, emitM, MeshM.throw, MeshM.bind_eval, MeshM.pure_eval]
        cases hpi : pyIndex acc.2.2 1 with
        | some i =>
          simp only [hpi, emitM, MeshM.throw, MeshM.bind_eval, MeshM.pure_eval]
          refine ⟨by simp [emitM, hbb], by simp [emitM, List.filter_cons, MeshEvent.isRevolve, hfil2], ?_⟩
          intro e he
          simp only [List.mem_cons] at he
          rcases he with rfl | rfl | he
          · exact Or.inr ⟨rfl, fun _ _ _ _ _ _ heq => by cases heq⟩
          · exact Or.inr ⟨rfl, fun rad cir surfs n1 n2 b heq => by
              obtain ⟨-, -, h3, h4, h5, h6⟩ := MeshEvent.setTransfinite.inj heq
              exact ⟨h4.symm, h5.symm, h6.symm, by rw [← h3, hrule]⟩⟩
          · exact hmem2 e he
        | none =>
          simp only [hpi, emitM, MeshM.throw, MeshM.bind_eval, MeshM.pure_eval]
          refine ⟨by simp [emitM, hbb], by simp [emitM, List.filter_cons, MeshEvent.isRevolve, hfil2], ?_⟩
          intro e he
          simp only [List.mem_cons] at he
          rcases he with rfl | he
          · exact Or.inr ⟨rfl, fun rad cir surfs n1 n2 b heq => by
              obtain ⟨-, -, h3, h4, h5, h6⟩ := MeshEvent.setTransfinite.inj heq
              exact ⟨h4.symm, h5.symm, h6.symm, by rw [← h3, hrule]⟩⟩
          · exact hmem2 e he
      | false =>
        simp only [hc1, Bool.false_eq_true, if_false, ite_false, emitM, MeshM.throw, MeshM.bind_eval, MeshM.pure_eval]
        cases hms : (find_missing_numbers acc.2.2 arange2to21).2 with
        | nil =>
          simp only [hms, emitM, MeshM.throw, MeshM.bind_eval, MeshM.pure_eval]
          refine ⟨by simp [emitM, hbb], by simp [emitM, List.filter_cons, MeshEvent.isRevolve, hfil2], ?_⟩
          intro e he
          simp only [List.mem_cons] at he
          rcases he with rfl | he
          · exact Or.inr ⟨rfl, fun rad cir surfs n1 n2 b heq => by
              obtain ⟨-, -, h3, h4, h5, h6⟩ := MeshEvent.setTransfinite.inj heq
              exact ⟨h4.symm, h5.symm, h6.symm, by rw [← h3, hrule]⟩⟩
          · exact hmem2 e he
        | cons m0 ms =>
          simp only [hms, emitM, MeshM.throw, MeshM.bind_eval, MeshM.pure_eval]
          cases hpi2 : pyIndex acc.2.2 m0 with
          | some i =>
            simp only [hpi2, emitM, MeshM.throw, MeshM.bind_eval, MeshM.pure_eval]
            refine ⟨by simp [emitM, hbb], by simp [emitM, List.filter_cons, MeshEvent.isRevolve, hfil2], ?_⟩
            intro e he
            simp only [List.mem_cons] at he
            rcases he with rfl | rfl | he
            · exact Or.inr ⟨rfl, fun _ _ _ _ _ _ heq => by cases heq⟩
            · exact Or.inr ⟨rfl, fun rad cir surfs n1 n2 b heq => by
                obtain ⟨-, -, h3, h4, h5, h6⟩ := MeshEvent.setTransfinite.inj heq
                exact ⟨h4.symm, h5.symm, h6.symm, by rw [← h3, hrule]⟩⟩
            · exact hmem2 e he
          | none =>
            simp only [hpi2, emitM, MeshM.throw, MeshM.bind_eval, MeshM.pure_eval]
            refine ⟨by simp [emitM, hbb], by simp [emitM, List.filter_cons, MeshEvent.isRevolve, hfil2], ?_⟩
            intro e he
            simp only [List.mem_cons] at he
            rcases he with rfl | he
            · exact Or.inr ⟨rfl, fun rad cir surfs n1 n2 b heq => by
                obtain ⟨-, -, h3, h4, h5, h6⟩ := MeshEvent.setTransfinite.inj heq
                exact ⟨h4.symm, h5.symm, h6.symm, by rw [← h3, hrule]⟩⟩
            · exact hmem2 e he

/-- Structural facts about the whole surface loop: oracles untouched,
no revolution calls added, and every transfinite declaration added
declares one surface with the source-rule arrangement for its bounding
box and carries the given counts and bias. -/
lemma processSurfs_spec (ndr ndc : ℤ) (bump : ℚ) (stype : String) (surfs : List ℤ) :
    ∀ K : MeshKernel,
    ((processSurfs ndr ndc bump stype surfs) K).2.bboxOf = K.bboxOf ∧
    (((processSurfs ndr ndc bump stype surfs) K).2.trace.filter MeshEvent.isRevolve
      = K.trace.filter MeshEvent.isRevolve) ∧
    ∀ e ∈ ((processSurfs ndr ndc bump stype surfs) K).2.trace,
      e ∈ K.trace ∨
      (e.isRevolve = false ∧
       ∀ rad cir surfs2 n1 n2 b, e = MeshEvent.setTransfinite rad cir surfs2 n1 n2 b →
         n1 = ndr ∧ n2 = ndc ∧ b = bump ∧
         ∃ s, surfs2 = [(s, use_arr_rule stype (K.bboxOf s))]) := by
  induction surfs with
  | nil =>
    intro K
    exact ⟨rfl, rfl, fun e he => Or.inl he⟩
  | cons s rest ih =>
    intro K
    obtain ⟨hbb1, hfil1, hmem1⟩ := processSurf_spec ndr ndc bump stype s K
    simp only [processSurfs, MeshM.bind_eval]
    rcases hps : processSurf ndr ndc bump stype s K with ⟨r, K1⟩
    rw [hps] at hbb1 hfil1 hmem1
    cases r with
    | error e0 =>
      exact ⟨hbb1, hfil1, fun e he =>
        (hmem1 e he).imp id (fun hg => ⟨hg.1, fun rad cir surfs2 n1 n2 b heq =>
          (hg.2 rad cir surfs2 n1 n2 b heq).imp id (fun h2 => h2.imp id
            (fun h3 => h3.imp id (fun h4 => ⟨s, h4⟩)))⟩)⟩
    | ok a =>
      obtain ⟨hbb2, hfil2, hmem2⟩ := ih K1
      refine ⟨by rw [hbb2, hbb1], by rw [hfil2, hfil1], ?_⟩
      intro e he
      rcases hmem2 e he with h2 | h2
      · rcases hmem1 e h2 with h3 | h3
        · exact Or.inl h3
        · exact Or.inr ⟨h3.1, fun rad cir surfs2 n1 n2 b heq =>
            (h3.2 rad cir surfs2 n1 n2 b heq).imp id (fun h4 => h4.imp id
              (fun h5 => h5.imp id (fun h6 => ⟨s, h6⟩)))⟩
      · refine Or.inr ⟨h2.1, fun rad cir surfs2 n1 n2 b heq => ?_⟩
        obtain ⟨g1, g2, g3, s2, g4⟩ := h2.2 rad cir surfs2 n1 n2 b heq
        exact ⟨g1, g2, g3, s2, by rw [g4, hbb1]⟩

/-- Structural facts about `_apply_transfinite_sweep`: it never issues
a kernel revolution, and every transfinite declaration it records
carries the given counts and bias and the source-rule arrangement. -/
lemma apply_transfinite_sweep_spec (sweep_results : List (ℤ × ℤ)) (ndr ndc : ℤ)
    (bump : ℚ) (stype : String) (K : MeshKernel) :
    ((_apply_transfinite_sweep sweep_results ndr ndc bump stype) K).2.bboxOf = K.bboxOf ∧
    (((_apply_transfinite_sweep sweep_results ndr ndc bump stype) K).2.trace.filter
        MeshEvent.isRevolve
      = K.trace.filter MeshEvent.isRevolve) ∧
    ∀ e ∈ ((_apply_transfinite_sweep sweep_results ndr ndc bump stype) K).2.trace,
      e ∈ K.trace ∨
      (e.isRevolve = false ∧
       ∀ rad cir surfs2 n1 n2 b, e = MeshEvent.setTransfinite rad cir surfs2 n1 n2 b →
         n1 = ndr ∧ n2 = ndc ∧ b = bump ∧
         ∃ s, surfs2 = [(s, use_arr_rule stype (K.bboxOf s))]) := by
  obtain ⟨hbb, hfil, hmem⟩ := processSurfs_spec ndr ndc bump stype
    (((sweep_results.filter (fun dt => dt.1 == 2)).map (fun dt => dt.2)))
    { K with trace := MeshEvent.synchronize :: K.trace }
  simp only [_apply_transfinite_sweep, MeshM.bind_eval, MeshM.pure_eval, synchronizeM, emitM]
  refine ⟨by rw [hbb], ?_, ?_⟩
  · rw [hfil]
    simp [List.filter_cons, MeshEvent.isRevolve]
  · intro e he
    rcases hmem e he with h2 | h2
    · simp only [List.mem_cons] at h2
      rcases h2 with rfl | h2
      · exact Or.inr ⟨rfl, fun _ _ _ _ _ _ heq => by cases heq⟩
      · exact Or.inl h2
    · exact Or.inr h2

/-- Pointwise corollary: a sweep application never adds a revolution
call. -/
lemma apply_sweep_filter_rev (sweep_results : List (ℤ × ℤ)) (ndr ndc : ℤ)
    (bump : ℚ) (stype : String) (K : MeshKernel) :
    ((_apply_transfinite_sweep sweep_results ndr ndc bump stype) K).2.trace.filter
        MeshEvent.isRevolve
      = K.trace.filter MeshEvent.isRevolve :=
  (apply_transfinite_sweep_spec sweep_results ndr ndc bump stype K).2.1

/-- C6 (amended): every transfinite declaration a sweep application
records carries the caller's division counts and bias, and its
arrangement is the rule the source computes — "inner" is always
"Right", any other type is "Right" exactly when the z-midpoint of the
surface's bounding box is within 1e-6 of the symmetry plane and the
box's x-range is nonnegative (y unconstrained), else "Left". -/
theorem C6_arrangement_label_rule (sweep_results : List (ℤ × ℤ)) (ndr ndc : ℤ)
    (bump : ℚ) (stype : String) (K : MeshKernel) (hK : K.trace = [])
    (rad cir : List ℤ) (s : ℤ) (arr : String) (n1 n2 : ℤ) (b : ℚ)
    (hmem : MeshEvent.setTransfinite rad cir [(s, arr)] n1 n2 b
      ∈ ((_apply_transfinite_sweep sweep_results ndr ndc bump stype) K).2.trace) :
    arr = use_arr_rule stype (K.bboxOf s) ∧ n1 = ndr ∧ n2 = ndc ∧ b = bump := by
  obtain ⟨-, -, hm⟩ := apply_transfinite_sweep_spec sweep_results ndr ndc bump stype K
  rcases hm _ hmem with h | h
  · rw [hK] at h
    cases h
  · obtain ⟨-, hfun⟩ := h
    obtain ⟨g1, g2, g3, s2, g4⟩ := hfun rad cir [(s, arr)] n1 n2 b rfl
    simp only [List.cons.injEq, Prod.mk.injEq, and_true] at g4
    obtain ⟨hs, harr⟩ := g4
    subst hs
    exact ⟨harr, g1, g2, g3⟩

/-- C6 witness: the amended arrangement rule applied to the concrete
run over `K6` (an "outer" sweep whose surface 5 has bounding box
`(0, -1, -1, 1, 1, 1)`): the recorded arrangement "Right" is exactly
what the source rule computes for that box. -/
theorem C6_arrangement_label_rule_witness :
    K6.trace = [] ∧
    MeshEvent.setTransfinite [11, 12, 13, 14] [] [(5, "Right")] 4 4 (1/5)
      ∈ (_apply_transfinite_sweep [(2, 5)] 4 4 (1/5) "outer" K6).2.trace ∧
    ("Right" = use_arr_rule "outer" (K6.bboxOf 5) ∧ (4:ℤ) = 4 ∧ (4:ℤ) = 4 ∧
      (1/5:ℚ) = 1/5) := by
  have hmem : MeshEvent.setTransfinite [11, 12, 13, 14] [] [(5, "Right")] 4 4 (1/5)
      ∈ (_apply_transfinite_sweep [(2, 5)] 4 4 (1/5) "outer" K6).2.trace := by
    norm_num [_apply_transfinite_sweep, processSurfs, processSurf, classifyEdges,
      getBoundingBoxOp, getSurfaceBoundary, getTypeOp, getCurveBoundary,
      synchronizeM, emitM, set_transfiniteM, listIndexM, listHeadM, pyIndex,
      find_missing_numbers, arange2to21, K6, MeshM.throw,
      show ("outer" = "inner") = False from by simp,
      show ("Line" = "Circle") = False from by simp]
  exact ⟨rfl, hmem,
    C6_arrangement_label_rule [(2, 5)] 4 4 (1/5) "outer" K6 rfl
      [11, 12, 13, 14] [] 5 "Right" 4 4 (1/5) hmem⟩

/-- The kernel calls of a mesh kernel state in chronological order. -/
def MeshKernel.events (k : MeshKernel) : List MeshEvent := k.trace.reverse

/-- C9: a call to revolve_surface issues exactly two kernel revolution
calls — one by `+angle`, then one by `-angle`, both of the same
surface — and when it returns, the returned pair consists of the
volume tag of the positive sweep's output and the volume tag of the
negative sweep's output. -/
theorem C9_two_independent_sweeps (ax ay az px py pz angle : ℚ) (sloop ndr ndc : ℤ)
    (bump : ℚ) (stype : String) (appT : Bool) (K : MeshKernel) (hK : K.trace = [])
    (vp vm : ℤ)
    (hres : ((revolve_surface ax ay az px py pz angle sloop ndr ndc bump stype appT) K).1
      = Except.ok (vp, vm)) :
    ∃ out1 out2,
      ((revolve_surface ax ay az px py pz angle sloop ndr ndc bump stype appT) K).2.events.filter
          MeshEvent.isRevolve
        = [MeshEvent.revolve sloop ax ay az px py pz angle out1,
           MeshEvent.revolve sloop ax ay az px py pz (-angle) out2] ∧
      out1.find? (fun dt => dt.1 == 3) = some (3, vp) ∧
      out2.find? (fun dt => dt.1 == 3) = some (3, vm) := by
  cases appT with
  | false =>
    simp only [revolve_surface, MeshM.bind_eval, MeshM.pure_eval, ensure_gmsh_availableM,
      revolveOp, nextDim3, Bool.false_eq_true, if_false, ite_false] at hres ⊢
    simp only [List.find?, show ((2:ℤ) == 3) = false from rfl,
      show ((3:ℤ) == 3) = true from rfl] at hres ⊢
    simp only [Except.ok.injEq, Prod.mk.injEq] at hres
    obtain ⟨rfl, rfl⟩ := hres
    refine ⟨(2, K.nextSurface) :: (3, K.nextVolume) ::
        (tagRange (K.nextSurface + 1) (K.numLateral sloop)).map (fun t => (2, t)),
      (2, K.nextSurface + 1 + (K.numLateral sloop : ℤ)) :: (3, K.nextVolume + 1) ::
        (tagRange (K.nextSurface + 1 + (K.numLateral sloop : ℤ) + 1)
          (K.numLateral sloop)).map (fun t => (2, t)), ?_, ?_, ?_⟩
    · simp [MeshKernel.events, hK, MeshEvent.isRevolve]
    · simp [List.find?, show ((2:ℤ) == 3) = false from rfl,
        show ((3:ℤ) == 3) = true from rfl]
    · simp [List.find?, show ((2:ℤ) == 3) = false from rfl,
        show ((3:ℤ) == 3) = true from rfl]
  | true =>
    simp only [revolve_surface, MeshM.bind_eval, MeshM.pure_eval, ensure_gmsh_availableM,
      revolveOp, nextDim3, if_true, ite_true] at hres ⊢
    simp only [List.find?, show ((2:ℤ) == 3) = false from rfl,
      show ((3:ℤ) == 3) = true from rfl] at hres ⊢
    split at hres
    next a K3 heq1 =>
      split at hres
      next a2 K4 heq2 =>
        simp only [Except.ok.injEq, Prod.mk.injEq] at hres
        obtain ⟨rfl, rfl⟩ := hres
        have h1 := congrArg (fun p => p.2.trace.filter MeshEvent.isRevolve) heq1
        simp only at h1
        rw [apply_sweep_filter_rev] at h1
        have h2 := congrArg (fun p => p.2.trace.filter MeshEvent.isRevolve) heq2
        simp only at h2
        rw [apply_sweep_filter_rev] at h2
        simp only [heq1, heq2]
        refine ⟨(2, K.nextSurface) :: (3, K.nextVolume) ::
            (tagRange (K.nextSurface + 1) (K.numLateral sloop)).map (fun t => (2, t)),
          (2, K.nextSurface + 1 + (K.numLateral sloop : ℤ)) :: (3, K.nextVolume + 1) ::
            (tagRange (K.nextSurface + 1 + (K.numLateral sloop : ℤ) + 1)
              (K.numLateral sloop)).map (fun t => (2, t)), ?_, ?_, ?_⟩
        · simp only [MeshKernel.events, List.filter_reverse]
          rw [← h2, ← h1]
          simp [hK, MeshEvent.isRevolve]
        · simp [List.find?, show ((2:ℤ) == 3) = false from rfl,
            show ((3:ℤ) == 3) = true from rfl]
        · simp [List.find?, show ((2:ℤ) == 3) = false from rfl,
            show ((3:ℤ) == 3) = true from rfl]
      next e K4 heq2 =>
        simp at hres
    next e K3 heq1 =>
      simp at hres

/-- C9 witness: the sweep-pairing theorem applied to a concrete
revolve of surface 5 about the z-axis by an eighth turn over `K6`:
the run returns volumes (1, 2), the positive and negative sweeps'
volume tags. -/
theorem C9_two_independent_sweeps_witness :
    K6.trace = [] ∧
    ((revolve_surface 0 0 1 0 0 0 (1/8) 5 4 4 (1/5) "outer" false) K6).1
      = Except.ok (1, 2) ∧
    (∃ out1 out2,
      ((revolve_surface 0 0 1 0 0 0 (1/8) 5 4 4 (1/5) "outer" false) K6).2.events.filter
          MeshEvent.isRevolve
        = [MeshEvent.revolve 5 0 0 1 0 0 0 (1/8) out1,
           MeshEvent.revolve 5 0 0 1 0 0 0 (-(1/8)) out2] ∧
      out1.find? (fun dt => dt.1 == 3) = some (3, 1) ∧
      out2.find? (fun dt => dt.1 == 3) = some (3, 2)) := by
  have hres : ((revolve_surface 0 0 1 0 0 0 (1/8) 5 4 4 (1/5) "outer" false) K6).1
      = Except.ok (1, 2) := by
    norm_num [revolve_surface, revolveOp, nextDim3, tagRange, ensure_gmsh_availableM,
      K6, List.find?, show ((2:ℤ) == 3) = false from rfl,
      show ((3:ℤ) == 3) = true from rfl]
  exact ⟨rfl, hres,
    C9_two_independent_sweeps 0 0 1 0 0 0 (1/8) 5 4 4 (1/5) "outer" false K6 rfl 1 2 hres⟩

end TConfBalls
